import Mathlib

/-! ILI9341 SPI display driver (`src/ili9341.c`).

A shallow embedding of the driver's window-and-write pipeline (`ili_draw_bitmap`),
the D/C line callback (`ili_spi_pre_transfer_callback`), the completion loop
(`send_line_finish`), the initialisation table (`ili_init_cmds`) and the synchronous
path that walks it (`ili_cmd`, `ili_data`, `ili_init`), followed by theorems about them.

Conventions of the embedding.

* C `int` is 32 bit.  Values are kept in `Int`; the only `int` computation of the
  driver that can leave the range is `w * h`, and there the C behaviour is undefined,
  which the embedding reports as `none`.
* `uint16_t` arguments are natural numbers (below `65536` in every call the C code can
  receive); a store into a `uint8_t` keeps the low eight bits (`u8`).
* A `calloc`ed array is a list of zeroed records; `a[i].f = v` is `upd a i ...`.
* `t.user` is `none` for `NULL` and `some k` for `&userdata[k]`; reading through it
  needs the `userdata` array the pointer refers to.
* `bitmap` is the address held by the `uint16_t *bitmap` argument; `bitmap + n` on
  that pointer advances the address by `2 * n` bytes.
* `tx_buffer` and `tx_data` share storage in the driver's `spi_transaction_t`; the
  code uses only one of them per transaction (chosen by `flags`), so they are kept
  as two fields.
* What the SDK answers (`calloc`, `spi_device_queue_trans`) is an argument, `Env`; an
  `assert` that fails ends the call with `returned = false`.
* `ili_init` is the list of the calls it makes (`Event`); what `spi_device_transmit`
  answers is an argument, `InitEnv`, and a read past the end of the table or of a
  `data` array gives `none`.
-/

namespace Ili9341

/-! ## Data model -/

/-- Largest value of the 32-bit C `int`. -/
def INT_MAX : Int := 2147483647

/-- Transaction flag of the SPI master driver, `(1<<3)`: transmit `tx_data`
instead of the memory at `tx_buffer`. -/
def SPI_TRANS_USE_TXDATA : Nat := 8

/-- Conversion of an `int` value to `uint8_t`: the low eight bits. -/
def u8 (v : Int) : Nat := (v % 256).toNat

/-- The C expression `v & 0xff` on a two's complement `int`. -/
def and_0xff (v : Int) : Int := v % 256

/-- The struct `spi_transaction_user_data_t` (lines 71-75). -/
structure spi_transaction_user_data_t where
  dc : Nat
  free_buffer : Nat
  buffer : Nat
deriving DecidableEq

/-- The fields of the driver's `spi_transaction_t` that `ili9341.c` touches. -/
structure spi_transaction_t where
  flags : Nat
  length : Nat
  user : Option Nat
  tx_buffer : Nat
  tx_data : List Nat
deriving DecidableEq

/-- One element of a `calloc`ed `spi_transaction_t` array: all bytes zero. -/
def calloc_trans : spi_transaction_t :=
  { flags := 0, length := 0, user := none, tx_buffer := 0, tx_data := [0, 0, 0, 0] }

/-- One element of a `calloc`ed `spi_transaction_user_data_t` array. -/
def calloc_userdata : spi_transaction_user_data_t :=
  { dc := 0, free_buffer := 0, buffer := 0 }

/-- The assignment `a[i] := f a[i]` on an array held as a list. -/
def upd {α : Type} : List α → Nat → (α → α) → List α
  | [], _, _ => []
  | a :: l, 0, f => f a :: l
  | a :: l, i + 1, f => a :: upd l i f

/-- What the environment answers during one call of `ili_draw_bitmap`. -/
structure Env where
  /-- Does `calloc(5 + chunks, sizeof(spi_transaction_t))` return non-NULL. -/
  calloc_trans_ok : Bool
  /-- Does `calloc(4, sizeof(spi_transaction_user_data_t))` return non-NULL. -/
  calloc_userdata_ok : Bool
  /-- Does the `k`-th call (from 0) of `spi_device_queue_trans` return `ESP_OK`. -/
  queue_trans_ok : Nat → Bool

/-- The environment in which both allocations and every submission succeed. -/
def Env.allOk : Env :=
  { calloc_trans_ok := true, calloc_userdata_ok := true, queue_trans_ok := fun _ => true }

/-- What one call of `ili_draw_bitmap` leaves behind. -/
structure DrawResult where
  /-- Is the end of the function reached (`false`: an `assert` aborted). -/
  returned : Bool
  /-- Final contents of the `trans` array. -/
  trans : List spi_transaction_t
  /-- Final contents of the `userdata` array. -/
  userdata : List spi_transaction_user_data_t
  /-- The transactions passed to `spi_device_queue_trans`, oldest first. -/
  queued : List spi_transaction_t
deriving DecidableEq

/-! ## `ili_spi_pre_transfer_callback` (lines 109-113) -/

/-- The level the callback passes to `gpio_set_level(PIN_NUM_DC, _)`, the D/C line, for
transaction `t`; `userdata` is the array `t.user` points into, and the result is `none`
when the pointer is not `NULL` and refers to no element of it. -/
def ili_spi_pre_transfer_callback (userdata : List spi_transaction_user_data_t)
    (t : spi_transaction_t) : Option Nat :=
  match t.user with
  | none => some 1
  | some p =>
    match userdata[p]? with
    | none => none
    | some u => if u.dc = 1 then some 1 else some 0

/-! ## `ili_draw_bitmap` (lines 145-219) -/

/-- The loop of lines 203-208, with `n` iterations left at index `i`: `q` are the
submissions so far; the flag tells whether every `assert(ret==ESP_OK)` passed. -/
def queue_control (env : Env) (trans : List spi_transaction_t) (n i : Nat)
    (q : List spi_transaction_t) : List spi_transaction_t × Bool :=
  match n with
  | 0 => (q, true)
  | n + 1 =>
    let q1 := q ++ [trans.getD i calloc_trans]
    if env.queue_trans_ok q.length then queue_control env trans n (i + 1) q1
    else (q1, false)

/-- The loop of lines 210-217, with `n` iterations left at index `i`: the `trans`
array, the submissions, and whether every `assert(ret==ESP_OK)` passed. -/
def queue_chunks (env : Env) (bitmap : Nat) (pixel remain : Int) (n i : Nat)
    (trans q : List spi_transaction_t) :
    List spi_transaction_t × List spi_transaction_t × Bool :=
  match n with
  | 0 => (trans, q, true)
  | n + 1 =>
    let trans1 := upd trans (5 + i) fun t => { t with tx_buffer := bitmap + 2 * (1024 * i) }
    let trans2 := upd trans1 (5 + i) fun t =>
      { t with length := if (i : Int) * 1024 < pixel then 16384 else (16 * remain).toNat }
    let q1 := q ++ [trans2.getD (5 + i) calloc_trans]
    if env.queue_trans_ok q.length then queue_chunks env bitmap pixel remain n (i + 1) trans2 q1
    else (trans2, q1, false)

/-- Lines 164-198: the writes to the `trans` array that precede the first submission.
They store only addresses of `userdata` elements, never their contents. -/
def fill_control (x y w h : Nat) (chunks : Int) (trans : List spi_transaction_t) :
    List spi_transaction_t :=
  -- lines 164-167
  let trans := upd trans 0 fun t =>
    { t with length := 8, user := some 0, flags := SPI_TRANS_USE_TXDATA,
             tx_data := t.tx_data.set 0 0x2A }
  -- lines 170-176
  let trans := upd trans 1 fun t =>
    { t with length := 8 * 4, user := none, flags := SPI_TRANS_USE_TXDATA,
             tx_data := (((t.tx_data.set 0 (u8 ((x : Int) >>> (8 : Nat)))).set 1
               (u8 (and_0xff x))).set 2 (u8 (((x : Int) + w - 1) >>> (8 : Nat)))).set 3
               (u8 (and_0xff ((x : Int) + w - 1))) }
  -- lines 178-181
  let trans := upd trans 2 fun t =>
    { t with length := 8, user := some 1, flags := SPI_TRANS_USE_TXDATA,
             tx_data := t.tx_data.set 0 0x2B }
  -- lines 184-190
  let trans := upd trans 3 fun t =>
    { t with length := 8 * 4, user := none, flags := SPI_TRANS_USE_TXDATA,
             tx_data := (((t.tx_data.set 0 (u8 ((y : Int) >>> (8 : Nat)))).set 1
               (u8 (and_0xff y))).set 2 (u8 (((y : Int) + h - 1) >>> (8 : Nat)))).set 3
               (u8 (and_0xff ((y : Int) + h - 1))) }
  -- lines 192-195
  let trans := upd trans 4 fun t =>
    { t with length := 8, flags := SPI_TRANS_USE_TXDATA, user := some 2,
             tx_data := t.tx_data.set 0 0x2C }
  -- line 198
  upd trans (4 + chunks).toNat fun t => { t with user := some 3 }

/-- Lines 168, 182, 196 and 199-201: the writes to the `userdata` array, all of which
precede the first submission. -/
def fill_userdata (bitmap : Nat) (free_buffer : Int)
    (userdata : List spi_transaction_user_data_t) : List spi_transaction_user_data_t :=
  let userdata := upd userdata 0 fun u => { u with dc := 0 }
  let userdata := upd userdata 1 fun u => { u with dc := 0 }
  let userdata := upd userdata 2 fun u => { u with dc := 0 }
  upd userdata 3 fun u => { u with dc := 1, free_buffer := u8 free_buffer, buffer := bitmap }

/-- The function `ili_draw_bitmap`.  The result is `none` when `w * h` overflows `int`
(undefined behaviour). -/
def ili_draw_bitmap (env : Env) (x y w h : Nat) (bitmap : Nat) (free_buffer : Int) :
    Option DrawResult :=
  let pixel : Int := (w : Int) * (h : Int)
  if INT_MAX < pixel then none else
  let remain : Int := Int.tmod pixel 1024
  let chunks : Int := Int.tdiv (pixel - 1) 1024 + 1
  -- lines 156-158
  if env.calloc_trans_ok = false then
    some { returned := false, trans := [], userdata := [], queued := [] } else
  let trans := List.replicate (5 + chunks).toNat calloc_trans
  -- lines 160-162
  if env.calloc_userdata_ok = false then
    some { returned := false, trans := trans, userdata := [], queued := [] } else
  let userdata := List.replicate 4 calloc_userdata
  -- lines 164-201
  let trans := fill_control x y w h chunks trans
  let userdata := fill_userdata bitmap free_buffer userdata
  -- lines 203-208
  let c := queue_control env trans 5 0 []
  if c.2 = false then
    some { returned := false, trans := trans, userdata := userdata, queued := c.1 } else
  -- lines 210-217
  let p := queue_chunks env bitmap pixel remain chunks.toNat 0 trans c.1
  some { returned := p.2.2, trans := p.1, userdata := userdata, queued := p.2.1 }

/-! ## `send_line_finish` (lines 222-237) -/

/-- One pass through the body of the `for (;;)` loop for the completed transaction
`rtrans`: the arguments of the calls of `free`, or `none` when `rtrans.user` refers to
no element of `userdata`. -/
def send_line_finish_body (userdata : List spi_transaction_user_data_t)
    (rtrans : spi_transaction_t) : Option (List Nat) :=
  match rtrans.user with
  | none => some []
  | some p =>
    match userdata[p]? with
    | none => none
    | some u => if u.free_buffer ≠ 0 then some [u.buffer] else some []

/-- The loop of `send_line_finish` run over the completions that
`spi_device_get_trans_result` delivers, in order: the arguments of all calls of
`free`, in call order. -/
def send_line_finish (userdata : List spi_transaction_user_data_t) :
    List spi_transaction_t → Option (List Nat)
  | [] => some []
  | rtrans :: rest =>
    match send_line_finish_body userdata rtrans, send_line_finish userdata rest with
    | some f, some fs => some (f ++ fs)
    | _, _ => none

/-! ## The initialisation table (lines 37-69) -/

/-- The struct `ili_init_cmd_t`; `data` holds all 16 bytes of the array, the ones
the initialiser leaves out being zero. -/
structure ili_init_cmd_t where
  cmd : Nat
  data : List Nat
  /-- No of data in data; bit 7 = delay after set; 0xFF = end of cmds. -/
  databytes : Nat
deriving DecidableEq

/-- A 16-byte `data` array from its initialiser list. -/
def data16 (l : List Nat) : List Nat := l ++ List.replicate (16 - l.length) 0

/-- The table `ili_init_cmds`. -/
def ili_init_cmds : List ili_init_cmd_t :=
  [ { cmd := 0xCF, data := data16 [0x00, 0x83, 0x30], databytes := 3 },
    { cmd := 0xED, data := data16 [0x64, 0x03, 0x12, 0x81], databytes := 4 },
    { cmd := 0xE8, data := data16 [0x85, 0x01, 0x79], databytes := 3 },
    { cmd := 0xCB, data := data16 [0x39, 0x2C, 0x00, 0x34, 0x02], databytes := 5 },
    { cmd := 0xF7, data := data16 [0x20], databytes := 1 },
    { cmd := 0xEA, data := data16 [0x00, 0x00], databytes := 2 },
    { cmd := 0xC0, data := data16 [0x26], databytes := 1 },
    { cmd := 0xC1, data := data16 [0x11], databytes := 1 },
    { cmd := 0xC5, data := data16 [0x35, 0x3E], databytes := 2 },
    { cmd := 0xC7, data := data16 [0xBE], databytes := 1 },
    { cmd := 0x36, data := data16 [0xe8], databytes := 1 },
    { cmd := 0x3A, data := data16 [0x55], databytes := 1 },
    { cmd := 0xB1, data := data16 [0x00, 0x1B], databytes := 2 },
    { cmd := 0xF2, data := data16 [0x08], databytes := 1 },
    { cmd := 0x26, data := data16 [0x01], databytes := 1 },
    { cmd := 0xE0, data := data16 [0x1F, 0x1A, 0x18, 0x0A, 0x0F, 0x06, 0x45, 0x87, 0x32, 0x0A,
        0x07, 0x02, 0x07, 0x05, 0x00], databytes := 15 },
    { cmd := 0xE1, data := data16 [0x00, 0x25, 0x27, 0x05, 0x10, 0x09, 0x3A, 0x78, 0x4D, 0x05,
        0x18, 0x0D, 0x38, 0x3A, 0x1F], databytes := 15 },
    { cmd := 0x2A, data := data16 [0x00, 0x00, 0x00, 0xEF], databytes := 4 },
    { cmd := 0x2B, data := data16 [0x00, 0x00, 0x01, 0x3f], databytes := 4 },
    { cmd := 0x2C, data := data16 [0], databytes := 0 },
    { cmd := 0xB7, data := data16 [0x07], databytes := 1 },
    { cmd := 0xB6, data := data16 [0x0A, 0x82, 0x27, 0x00], databytes := 4 },
    { cmd := 0x11, data := data16 [0], databytes := 0x80 },
    { cmd := 0x29, data := data16 [0], databytes := 0x80 },
    { cmd := 0, data := data16 [0], databytes := 0xff } ]

/-! ## `ili_cmd`, `ili_data` and `ili_init` (lines 78-105 and 116-142) -/

/-- GPIO number of the D/C line. -/
def PIN_NUM_DC : Nat := 21

/-- GPIO number of the reset line. -/
def PIN_NUM_RST : Nat := 18

/-- GPIO number of the backlight. -/
def PIN_NUM_BCKL : Nat := 5

/-- What `ili_init` does to the outside, one call each. -/
inductive Event where
  /-- The call `gpio_set_direction(pin, GPIO_MODE_OUTPUT)`. -/
  | gpio_set_direction_output (pin : Nat)
  /-- The call `gpio_set_level(pin, level)`. -/
  | gpio_set_level (pin level : Nat)
  /-- The call `vTaskDelay(100 / portTICK_RATE_MS)`. -/
  | vTaskDelay_100ms
  /-- The call `spi_device_transmit(spi, &t)`: the transaction, the record `t.user` points
  to (as a one-element array) if any, and the `t.length / 8` bytes at `t.tx_buffer`. -/
  | spi_device_transmit (t : spi_transaction_t) (userdata : List spi_transaction_user_data_t)
      (bytes : List Nat)
deriving DecidableEq

/-- What the environment answers during `ili_init`, and where the objects lie. -/
structure InitEnv where
  /-- Does the `k`-th call (from 0) of `spi_device_transmit` return `ESP_OK`. -/
  transmit_ok : Nat → Bool
  /-- Address of the parameter `cmd` of `ili_cmd`. -/
  cmd_addr : Nat
  /-- Address of the table `ili_init_cmds`. -/
  table_addr : Nat

/-- The function `ili_cmd` (lines 78-91): the call it makes, and whether
`assert(ret==ESP_OK)` passes; `ok` is the answer of `spi_device_transmit` and
`cmd_addr` the address of the parameter `cmd`. -/
def ili_cmd (ok : Bool) (cmd_addr : Nat) (cmd : Nat) : List Event × Bool :=
  -- lines 83-84: memset
  let t := calloc_trans
  let u := calloc_userdata
  let t := { t with length := 8 }
  let t := { t with tx_buffer := cmd_addr }
  let t := { t with user := some 0 }
  let u := { u with dc := 0 }
  ([Event.spi_device_transmit t [u] [cmd]], ok)

/-- The function `ili_data` (lines 94-105) for a pointer `data` to the array `mem`: the
call it makes, if any, and whether `assert(ret==ESP_OK)` passes.  The result is `none`
when `len * 8` overflows `int` or when `mem` does not hold `len` bytes. -/
def ili_data (ok : Bool) (data : Nat) (mem : List Nat) (len : Int) :
    Option (List Event × Bool) :=
  if len = 0 then some ([], true) else
  if INT_MAX < len * 8 ∨ len < 0 ∨ (mem.length : Int) < len then none else
  let t := calloc_trans
  let t := { t with length := (len * 8).toNat }
  let t := { t with tx_buffer := data }
  let t := { t with user := none }
  some ([Event.spi_device_transmit t [] (mem.take len.toNat)], ok)

/-- The loop of lines 131-138 on the part of the table that starts at index `cmd`, after
`k` calls of `spi_device_transmit`: the calls made, and whether every `assert` passed.
The result is `none` when the walk reads past the end of the table or of a `data`
array.  An entry takes 18 bytes, its `data` array starting at offset 1. -/
def ili_init_loop (env : InitEnv) : Nat → Nat → List ili_init_cmd_t →
    Option (List Event × Bool)
  | _, _, [] => none
  | cmd, k, e :: rest =>
    if e.databytes = 0xff then some ([], true) else
    let c := ili_cmd (env.transmit_ok k) env.cmd_addr e.cmd
    if c.2 = false then some (c.1, false) else
    match ili_data (env.transmit_ok (k + 1)) (env.table_addr + 18 * cmd + 1) e.data
        ((e.databytes &&& 0x1F : Nat) : Int) with
    | none => none
    | some d =>
      if d.2 = false then some (c.1 ++ d.1, false) else
      let dl := if e.databytes &&& 0x80 ≠ 0 then [Event.vTaskDelay_100ms] else []
      match ili_init_loop env (cmd + 1) (k + 1 + d.1.length) rest with
      | none => none
      | some r => some (c.1 ++ d.1 ++ dl ++ r.1, r.2)

/-- The function `ili_init` (lines 116-142): the calls made, in order, and whether the
end of the function is reached. -/
def ili_init (env : InitEnv) : Option (List Event × Bool) :=
  let pre := [Event.gpio_set_direction_output PIN_NUM_DC,
    Event.gpio_set_direction_output PIN_NUM_RST,
    Event.gpio_set_direction_output PIN_NUM_BCKL,
    Event.gpio_set_level PIN_NUM_RST 0, Event.vTaskDelay_100ms,
    Event.gpio_set_level PIN_NUM_RST 1, Event.vTaskDelay_100ms]
  match ili_init_loop env 0 0 ili_init_cmds with
  | none => none
  | some r =>
    if r.2 = false then some (pre ++ r.1, false)
    else some (pre ++ r.1 ++ [Event.gpio_set_level PIN_NUM_BCKL 0], true)

/-- What goes over the wire and when the walk pauses. -/
inductive Wire where
  /-- One byte sent with the D/C line at level `dc`. -/
  | byte (dc : Nat) (b : Nat)
  /-- The delay after a command. -/
  | delay
deriving DecidableEq

/-- The wire view of one call: the bytes of a transmission, each with the D/C level that
`ili_spi_pre_transfer_callback` selects for the transaction. -/
def Event.wire : Event → List Wire
  | Event.spi_device_transmit t userdata bytes =>
    match ili_spi_pre_transfer_callback userdata t with
    | some dc => bytes.map (Wire.byte dc)
    | none => []
  | Event.vTaskDelay_100ms => [Wire.delay]
  | _ => []

/-- The sequence the initialisation is to produce, in the words of the table's comment:
for each entry before the first one with `databytes = 0xFF`, the command byte, the
first `databytes & 0x1F` data bytes, and a delay if bit 7 of `databytes` is set. -/
def init_sequence : List ili_init_cmd_t → List Wire
  | [] => []
  | e :: rest =>
    if e.databytes = 0xff then [] else
    [Wire.byte 0 e.cmd] ++ (e.data.take (e.databytes &&& 0x1F)).map (Wire.byte 1) ++
      (if e.databytes &&& 0x80 ≠ 0 then [Wire.delay] else []) ++ init_sequence rest

/-! ## Predicates and closed forms used by the theorems -/

/-- A rectangle `ili_draw_bitmap` can be called with together with a bitmap of `w * h`
pixels: `uint16_t` fields, nonzero sides, window ends that fit the 16-bit protocol
field, and a pixel count within `int` (a bitmap of more 16-bit pixels does not fit a
32-bit address space). -/
def valid_rect (x y w h : Nat) : Prop :=
  x < 65536 ∧ y < 65536 ∧ w < 65536 ∧ h < 65536 ∧ 1 ≤ w ∧ 1 ≤ h ∧
    x + w - 1 ≤ 65535 ∧ y + h - 1 ≤ 65535 ∧ w * h ≤ 2147483647

instance (x y w h : Nat) : Decidable (valid_rect x y w h) := by
  unfold valid_rect
  infer_instance

/-- Transaction `t` is sent from `tx_data`, is 32 bits long, and its four bytes are the
big-endian 16-bit encodings of `a` followed by `b`. -/
def carries_window (t : spi_transaction_t) (a b : Nat) : Prop :=
  t.flags = SPI_TRANS_USE_TXDATA ∧ t.length = 32 ∧
    ∃ b0 b1 b2 b3, t.tx_data = [b0, b1, b2, b3] ∧
      b0 < 256 ∧ b1 < 256 ∧ b2 < 256 ∧ b3 < 256 ∧ b0 * 256 + b1 = a ∧ b2 * 256 + b3 = b

/-- Both allocations and every submission succeed. -/
def Env.Succeeds (env : Env) : Prop :=
  env.calloc_trans_ok = true ∧ env.calloc_userdata_ok = true ∧ ∀ k, env.queue_trans_ok k = true

/-- The payload transaction at loop index `i`, made from the array element `t`. -/
def fill_chunk (bitmap : Nat) (pixel remain : Int) (i : Nat) (t : spi_transaction_t) :
    spi_transaction_t :=
  { t with tx_buffer := bitmap + 2 * (1024 * i),
           length := if (i : Int) * 1024 < pixel then 16384 else (16 * remain).toNat }

/-- The five control transactions as queued. -/
def control_trans (x y w h : Nat) : List spi_transaction_t :=
  [ { flags := SPI_TRANS_USE_TXDATA, length := 8, user := some 0, tx_buffer := 0,
      tx_data := [0x2A, 0, 0, 0] },
    { flags := SPI_TRANS_USE_TXDATA, length := 32, user := none, tx_buffer := 0,
      tx_data := [u8 ((x : Int) >>> (8 : Nat)), u8 (and_0xff x), u8 (((x : Int) + w - 1) >>> (8 : Nat)),
                  u8 (and_0xff ((x : Int) + w - 1))] },
    { flags := SPI_TRANS_USE_TXDATA, length := 8, user := some 1, tx_buffer := 0,
      tx_data := [0x2B, 0, 0, 0] },
    { flags := SPI_TRANS_USE_TXDATA, length := 32, user := none, tx_buffer := 0,
      tx_data := [u8 ((y : Int) >>> (8 : Nat)), u8 (and_0xff y), u8 (((y : Int) + h - 1) >>> (8 : Nat)),
                  u8 (and_0xff ((y : Int) + h - 1))] },
    { flags := SPI_TRANS_USE_TXDATA, length := 8, user := some 2, tx_buffer := 0,
      tx_data := [0x2C, 0, 0, 0] } ]

/-- The payload transaction of index `i` as queued, for a pixel count `p`. -/
def chunk_trans (bitmap p i : Nat) : spi_transaction_t :=
  { flags := 0,
    length := if 1024 * i < p then 16384 else 16 * (p % 1024),
    user := if i + 1 = (p - 1) / 1024 + 1 then some 3 else none,
    tx_buffer := bitmap + 2 * (1024 * i),
    tx_data := [0, 0, 0, 0] }

/-- The `userdata` array when the submissions start. -/
def final_userdata (bitmap : Nat) (free_buffer : Int) : List spi_transaction_user_data_t :=
  [ { dc := 0, free_buffer := 0, buffer := 0 }, { dc := 0, free_buffer := 0, buffer := 0 },
    { dc := 0, free_buffer := 0, buffer := 0 },
    { dc := 1, free_buffer := u8 free_buffer, buffer := bitmap } ]

/-! ## Lemmas -/

theorem length_upd {α : Type} (l : List α) (i : Nat) (f : α → α) :
    (upd l i f).length = l.length := by
  induction l generalizing i with
  | nil => rfl
  | cons a l ih => cases i <;> simp [upd, ih]

theorem getD_upd {α : Type} (l : List α) (i j : Nat) (f : α → α) (d : α) :
    (upd l i f).getD j d = if i = j ∧ i < l.length then f (l.getD i d) else l.getD j d := by
  induction l generalizing i j with
  | nil => simp [upd]
  | cons a l ih =>
    cases i with
    | zero => cases j <;> simp [upd]
    | succ i =>
      cases j with
      | zero => simp [upd]
      | succ j => simpa [upd, List.getD_eq_getElem?_getD] using ih i j

theorem getD_replicate_self {α : Type} (n k : Nat) (d : α) :
    (List.replicate n d).getD k d = d := by
  induction n generalizing k with
  | zero => simp
  | succ n ih => cases k <;> simp [List.replicate_succ, ih]

theorem queue_control_ok (env : Env) (henv : ∀ k, env.queue_trans_ok k = true)
    (trans : List spi_transaction_t) (n i : Nat) (q : List spi_transaction_t) :
    queue_control env trans n i q
      = (q ++ (List.range' i n).map fun j => trans.getD j calloc_trans, true) := by
  induction n generalizing i q with
  | zero => simp [queue_control]
  | succ n ih => simp [queue_control, henv, ih, List.range'_succ]

theorem queue_chunks_ok (env : Env) (henv : ∀ k, env.queue_trans_ok k = true)
    (bitmap : Nat) (pixel remain : Int) (n i : Nat) (trans q : List spi_transaction_t)
    (hlen : 5 + i + n ≤ trans.length) :
    (queue_chunks env bitmap pixel remain n i trans q).2
      = (q ++ (List.range' i n).map fun j =>
          fill_chunk bitmap pixel remain j (trans.getD (5 + j) calloc_trans), true) := by
  induction n generalizing i trans q with
  | zero => simp [queue_chunks]
  | succ n ih =>
    simp only [queue_chunks, henv, if_true]
    rw [ih]
    · simp only [List.range'_succ, List.map_cons, List.append_assoc, List.singleton_append]
      congr 2
      congr 1
      · rw [getD_upd, getD_upd, length_upd, if_pos ⟨rfl, by omega⟩, if_pos ⟨rfl, by omega⟩]
        rfl
      · apply List.map_congr_left
        intro j hj
        rw [List.mem_range'_1] at hj
        rw [getD_upd, if_neg (by omega), getD_upd, if_neg (by omega)]
    · simp [length_upd]; omega

theorem queue_chunks_length (env : Env) (bitmap : Nat) (pixel remain : Int) (n i : Nat)
    (trans q : List spi_transaction_t) :
    (queue_chunks env bitmap pixel remain n i trans q).1.length = trans.length := by
  induction n generalizing i trans q with
  | zero => rfl
  | succ n ih =>
    simp only [queue_chunks]
    split
    · rw [ih, length_upd, length_upd]
    · rw [length_upd, length_upd]

theorem chunks_eq (p : Nat) :
    Int.tdiv ((p : Int) - 1) 1024 + 1 = (((p - 1) / 1024 + 1 : Nat) : Int) := by
  rcases Nat.eq_zero_or_pos p with h0 | hpos
  · subst h0; decide
  · rw [Int.tdiv_eq_ediv (by omega) (by omega)]
    omega

theorem remain_eq (p : Nat) : Int.tmod (p : Int) 1024 = ((p % 1024 : Nat) : Int) := by
  rw [Int.tmod_eq_emod (by omega) (by omega)]
  omega

theorem fill_userdata_calloc (bitmap : Nat) (free_buffer : Int) :
    fill_userdata bitmap free_buffer (List.replicate 4 calloc_userdata)
      = final_userdata bitmap free_buffer := rfl

theorem fill_control_calloc (x y w h M : Nat) :
    fill_control x y w h ((M + 1 : Nat) : Int)
        (List.replicate (5 + ((M + 1 : Nat) : Int)).toNat calloc_trans)
      = control_trans x y w h ++
          upd (List.replicate (M + 1) calloc_trans) M fun t => { t with user := some 3 } := by
  have e1 : (5 + ((M + 1 : Nat) : Int)).toNat = (M + 1) + 5 := by omega
  have e2 : (4 + ((M + 1 : Nat) : Int)).toNat = M + 5 := by omega
  have e3 : List.replicate (M + 1 + 5) calloc_trans
      = calloc_trans :: calloc_trans :: calloc_trans :: calloc_trans :: calloc_trans ::
          List.replicate (M + 1) calloc_trans := rfl
  unfold fill_control
  rw [e1, e2, e3]
  rfl

theorem chunks_mul_eq (w h : Nat) :
    Int.tdiv ((w : Int) * (h : Int) - 1) 1024 + 1 = (((w * h - 1) / 1024 + 1 : Nat) : Int) := by
  have := chunks_eq (w * h)
  rwa [Nat.cast_mul] at this

theorem remain_mul_eq (w h : Nat) :
    Int.tmod ((w : Int) * (h : Int)) 1024 = ((w * h % 1024 : Nat) : Int) := by
  have := remain_eq (w * h)
  rwa [Nat.cast_mul] at this

theorem fill_chunk_calloc (x y bitmap w h j : Nat) :
    fill_chunk bitmap ((w : Int) * (h : Int)) ((w * h % 1024 : Nat) : Int) j
        ((control_trans x y w h ++ upd (List.replicate ((w * h - 1) / 1024 + 1) calloc_trans)
            ((w * h - 1) / 1024) fun t => { t with user := some 3 }).getD (5 + j) calloc_trans)
      = chunk_trans bitmap (w * h) j := by
  have hlen : (control_trans x y w h).length = 5 := rfl
  rw [List.getD_append_right _ _ _ _ (by omega), hlen, Nat.add_sub_cancel_left, getD_upd,
    getD_replicate_self, getD_replicate_self, List.length_replicate]
  have hc : ((j : Int) * 1024 < (w : Int) * (h : Int)) ↔ 1024 * j < w * h := by
    rw [← Nat.cast_mul]; omega
  have hr : (16 * ((w : Int) * (h : Int) % 1024)).toNat = 16 * (w * h % 1024) := by
    rw [← Nat.cast_mul]; omega
  by_cases hu : (w * h - 1) / 1024 = j
  · rw [if_pos ⟨hu, by omega⟩]
    simp [fill_chunk, chunk_trans, calloc_trans, hc, hr, hu]
  · rw [if_neg (by omega)]
    have : ¬ j + 1 = (w * h - 1) / 1024 + 1 := by omega
    simp [fill_chunk, chunk_trans, calloc_trans, hc, hr, this]

theorem draw_ok (env : Env) (henv : env.Succeeds) (x y w h bitmap : Nat) (free_buffer : Int)
    (hp : w * h ≤ 2147483647) :
    ∃ r, ili_draw_bitmap env x y w h bitmap free_buffer = some r ∧ r.returned = true ∧
      r.trans.length = 5 + ((w * h - 1) / 1024 + 1) ∧
      r.userdata = final_userdata bitmap free_buffer ∧
      r.queued = control_trans x y w h ++
        (List.range ((w * h - 1) / 1024 + 1)).map (chunk_trans bitmap (w * h)) := by
  obtain ⟨h1, h2, h3⟩ := henv
  have hpi : ¬ INT_MAX < (w : Int) * (h : Int) := by
    have : ((w * h : Nat) : Int) ≤ 2147483647 := by exact_mod_cast hp
    simp only [INT_MAX]; push_cast at this; omega
  unfold ili_draw_bitmap
  simp only [hpi, h1, h2, if_false]
  rw [chunks_mul_eq, remain_mul_eq, fill_control_calloc, fill_userdata_calloc,
    queue_control_ok env h3]
  simp only [Int.toNat_ofNat, Bool.true_eq_false, if_false]
  have hlen : 5 + 0 + ((w * h - 1) / 1024 + 1) ≤ (control_trans x y w h ++
      upd (List.replicate ((w * h - 1) / 1024 + 1) calloc_trans) ((w * h - 1) / 1024)
        fun t => { t with user := some 3 }).length := by
    simp only [List.length_append, length_upd, List.length_replicate, control_trans,
      List.length_cons, List.length_nil]
    omega
  simp only [queue_chunks_ok env h3 _ _ _ _ _ _ _ hlen]
  refine ⟨_, rfl, rfl, ?_, rfl, ?_⟩
  · show (queue_chunks _ _ _ _ _ _ _ _).1.length = _
    rw [queue_chunks_length]
    exact le_antisymm (by
      simp only [List.length_append, length_upd, List.length_replicate, control_trans,
        List.length_cons, List.length_nil]
      omega) hlen
  rw [List.nil_append, List.range_eq_range']
  show List.map _ _ ++ List.map _ _ = _
  congr 1
  apply List.map_congr_left
  intro j _
  exact fill_chunk_calloc x y bitmap w h j


theorem drop_control (x y w h : Nat) (l : List spi_transaction_t) :
    (control_trans x y w h ++ l).drop 5 = l := rfl

theorem length_control_append (x y w h : Nat) (l : List spi_transaction_t) :
    (control_trans x y w h ++ l).length = 5 + l.length := by
  simp only [control_trans, List.length_append, List.length_cons, List.length_nil]

theorem ceil_chunks (p : Nat) (hp : 1 ≤ p) : (p - 1) / 1024 + 1 = (p + 1023) / 1024 := by
  omega

/-! ## Chunking of the payload -/

/-- C1: for a rectangle with `w ≥ 1`, `h ≥ 1` and `w * h` representable in `int`, when
both allocations and all submissions succeed, `ili_draw_bitmap` returns after building
an array of `5 + N` transactions and queueing `5 + N` transactions, `N` of them after
the first five, where `N = (w * h + 1023) / 1024` is `w * h / 1024` rounded up. -/
theorem draw_payload_count (env : Env) (henv : env.Succeeds) (x y w h bitmap : Nat)
    (free_buffer : Int) (hw : 1 ≤ w) (hh : 1 ≤ h) (hp : w * h ≤ 2147483647) :
    ∃ r, ili_draw_bitmap env x y w h bitmap free_buffer = some r ∧ r.returned = true ∧
      r.trans.length = 5 + (w * h + 1023) / 1024 ∧
      r.queued.length = 5 + (w * h + 1023) / 1024 ∧
      (r.queued.drop 5).length = (w * h + 1023) / 1024 := by
  obtain ⟨r, hr, hret, htr, -, hq⟩ := draw_ok env henv x y w h bitmap free_buffer hp
  have hpos : 1 ≤ w * h := Nat.mul_pos hw hh
  rw [ceil_chunks _ hpos] at htr hq
  refine ⟨r, hr, hret, htr, ?_, ?_⟩
  · rw [hq, length_control_append]; simp
  · rw [hq, drop_control]; simp

/-- Witness of `draw_payload_count`: a 240 x 320 full-screen draw, 75 chunks. -/
theorem draw_payload_count_witness :
    (1 ≤ 240 ∧ 1 ≤ 320 ∧ 240 * 320 ≤ 2147483647) ∧
    ∃ r, ili_draw_bitmap Env.allOk 0 0 240 320 1073414144 1 = some r ∧ r.returned = true ∧
      r.trans.length = 5 + (240 * 320 + 1023) / 1024 ∧
      r.queued.length = 5 + (240 * 320 + 1023) / 1024 ∧
      (r.queued.drop 5).length = (240 * 320 + 1023) / 1024 :=
  ⟨by decide, draw_payload_count Env.allOk ⟨rfl, rfl, fun _ => rfl⟩ 0 0 240 320 1073414144 1
    (by decide) (by decide) (by decide)⟩

/-- C2, the code at the failing input: a 10 x 10 draw (100 pixels, 1600 bits) queues a
single payload transaction, and the declared bit lengths of the payload sum to 16384. -/
theorem draw_10x10_payload_bits :
    (ili_draw_bitmap Env.allOk 0 0 10 10 1073414144 0).map
      (fun r => ((r.queued.drop 5).map fun t => t.length).sum) = some 16384 := by
  decide

/-- C3, the code at the failing input: the last (and only) payload transaction of a
10 x 10 draw starts at the bitmap and declares 16384 bits, that is pixels `[0, 1024)`
of a bitmap of 100 pixels. -/
theorem draw_10x10_last_chunk :
    (ili_draw_bitmap Env.allOk 0 0 10 10 1073414144 0).map
      (fun r => (r.queued.drop 5).map fun t => (t.tx_buffer, t.length))
      = some [(1073414144, 16384)] := by
  decide

/-- C4: when the pixel count is a positive multiple of 1024, `w * h = 1024 * k` with
`k ≥ 1`, the draw queues `5 + k` transactions, exactly `k` of them payload, and every
payload transaction declares 16384 bits (none is empty). -/
theorem draw_full_chunks (env : Env) (henv : env.Succeeds) (x y w h bitmap k : Nat)
    (free_buffer : Int) (hk : 1 ≤ k) (hwh : w * h = 1024 * k) (hp : w * h ≤ 2147483647) :
    ∃ r, ili_draw_bitmap env x y w h bitmap free_buffer = some r ∧ r.returned = true ∧
      r.queued.length = 5 + k ∧ (r.queued.drop 5).length = k ∧
      ∀ t ∈ r.queued.drop 5, t.length = 16384 := by
  obtain ⟨r, hr, hret, -, -, hq⟩ := draw_ok env henv x y w h bitmap free_buffer hp
  have hN : (w * h - 1) / 1024 + 1 = k := by omega
  rw [hN] at hq
  refine ⟨r, hr, hret, ?_, ?_, ?_⟩
  · rw [hq, length_control_append]; simp
  · rw [hq, drop_control]; simp
  · rw [hq, drop_control]
    intro t ht
    obtain ⟨i, hi, rfl⟩ := List.mem_map.mp ht
    have hi : i < k := List.mem_range.mp hi
    have : 1024 * i < w * h := by omega
    simp [chunk_trans, this]

/-- Witness of `draw_full_chunks`: 64 x 64 gives 4 full chunks, 32 x 32 gives 1. -/
theorem draw_full_chunks_witness :
    (∃ r, ili_draw_bitmap Env.allOk 0 0 64 64 1073414144 1 = some r ∧ r.returned = true ∧
      r.queued.length = 5 + 4 ∧ (r.queued.drop 5).length = 4 ∧
      ∀ t ∈ r.queued.drop 5, t.length = 16384) ∧
    (∃ r, ili_draw_bitmap Env.allOk 0 0 32 32 1073414144 1 = some r ∧ r.returned = true ∧
      r.queued.length = 5 + 1 ∧ (r.queued.drop 5).length = 1 ∧
      ∀ t ∈ r.queued.drop 5, t.length = 16384) :=
  ⟨draw_full_chunks Env.allOk ⟨rfl, rfl, fun _ => rfl⟩ 0 0 64 64 1073414144 4 1
      (by decide) (by decide) (by decide),
   draw_full_chunks Env.allOk ⟨rfl, rfl, fun _ => rfl⟩ 0 0 32 32 1073414144 1 1
      (by decide) (by decide) (by decide)⟩


/-! ## Order and contents of the submissions -/

theorem u8_shr8 (v : Int) (n : Nat) (hv : v = (n : Int)) (hn : n < 65536) :
    u8 (v >>> (8 : Nat)) = n / 256 := by
  subst hv
  rw [Int.shiftRight_eq_div_pow]
  simp only [u8]
  norm_num
  omega

theorem u8_and_0xff (v : Int) (n : Nat) (hv : v = (n : Int)) :
    u8 (and_0xff v) = n % 256 := by
  subst hv
  simp only [u8, and_0xff]
  omega

/-- The four window bytes written by lines 173-176 (and 187-190) when the window end
`a + n - 1` fits 16 bits. -/
theorem window_bytes (a n : Nat) (hn : 1 ≤ n) (he : a + n - 1 ≤ 65535) :
    [u8 ((a : Int) >>> (8 : Nat)), u8 (and_0xff a), u8 (((a : Int) + n - 1) >>> (8 : Nat)),
      u8 (and_0xff ((a : Int) + n - 1))]
      = [a / 256, a % 256, (a + n - 1) / 256, (a + n - 1) % 256] := by
  have hc : (a : Int) + n - 1 = ((a + n - 1 : Nat) : Int) := by omega
  rw [u8_shr8 a a rfl (by omega), u8_and_0xff a a rfl, u8_shr8 _ _ hc (by omega),
    u8_and_0xff _ _ hc]

/-- C5: for a valid rectangle, when both allocations and all submissions succeed, the
transactions passed to `spi_device_queue_trans` are `5 + N` in number
(`N = (w * h + 1023) / 1024` payload chunks) and are, in this order: the command byte
0x2A (8 bits), the four bytes of the column window (32 bits), the command byte 0x2B,
the four bytes of the page window, the command byte 0x2C, all five sent from `tx_data`,
and then for `i = 0, ..., N - 1` the payload chunk sent from `tx_buffer`, which is
`bitmap + 1024 * i` (pixel offset `1024 * i`, byte offset `2 * (1024 * i)`). -/
theorem draw_submission_order (env : Env) (henv : env.Succeeds) (x y w h bitmap : Nat)
    (free_buffer : Int) (hv : valid_rect x y w h) :
    ∃ r, ili_draw_bitmap env x y w h bitmap free_buffer = some r ∧ r.returned = true ∧
      r.queued.length = 5 + (w * h + 1023) / 1024 ∧
      (r.queued.take 5).map (fun t => (t.flags, t.length, t.tx_data)) =
        [ (SPI_TRANS_USE_TXDATA, 8, [0x2A, 0, 0, 0]),
          (SPI_TRANS_USE_TXDATA, 32, [x / 256, x % 256, (x + w - 1) / 256, (x + w - 1) % 256]),
          (SPI_TRANS_USE_TXDATA, 8, [0x2B, 0, 0, 0]),
          (SPI_TRANS_USE_TXDATA, 32, [y / 256, y % 256, (y + h - 1) / 256, (y + h - 1) % 256]),
          (SPI_TRANS_USE_TXDATA, 8, [0x2C, 0, 0, 0]) ] ∧
      ∀ i, i < (w * h + 1023) / 1024 →
        ∃ t, r.queued[5 + i]? = some t ∧ t.flags = 0 ∧ t.tx_buffer = bitmap + 2 * (1024 * i) := by
  obtain ⟨-, -, -, -, hw, hh, hx, hy, hp⟩ := hv
  obtain ⟨r, hr, hret, -, -, hq⟩ := draw_ok env henv x y w h bitmap free_buffer hp
  have hpos : 1 ≤ w * h := Nat.mul_pos hw hh
  rw [ceil_chunks _ hpos] at hq
  refine ⟨r, hr, hret, ?_, ?_, ?_⟩
  · rw [hq, length_control_append]; simp
  · rw [hq]
    show (control_trans x y w h).map _ = _
    simp only [control_trans, List.map_cons, List.map_nil, window_bytes x w hw hx,
      window_bytes y h hh hy]
  · intro i hi
    refine ⟨chunk_trans bitmap (w * h) i, ?_, rfl, rfl⟩
    rw [hq, List.getElem?_append_right (by simp [control_trans])]
    simp [control_trans, List.getElem?_range hi]

/-- Witness of `draw_submission_order`: a 64 x 64 draw at the origin. -/
theorem draw_submission_order_witness :
    valid_rect 0 0 64 64 ∧
    ∃ r, ili_draw_bitmap Env.allOk 0 0 64 64 1073414144 1 = some r ∧ r.returned = true ∧
      r.queued.length = 5 + (64 * 64 + 1023) / 1024 ∧
      (r.queued.take 5).map (fun t => (t.flags, t.length, t.tx_data)) =
        [ (SPI_TRANS_USE_TXDATA, 8, [0x2A, 0, 0, 0]),
          (SPI_TRANS_USE_TXDATA, 32, [0 / 256, 0 % 256, (0 + 64 - 1) / 256, (0 + 64 - 1) % 256]),
          (SPI_TRANS_USE_TXDATA, 8, [0x2B, 0, 0, 0]),
          (SPI_TRANS_USE_TXDATA, 32, [0 / 256, 0 % 256, (0 + 64 - 1) / 256, (0 + 64 - 1) % 256]),
          (SPI_TRANS_USE_TXDATA, 8, [0x2C, 0, 0, 0]) ] ∧
      ∀ i, i < (64 * 64 + 1023) / 1024 →
        ∃ t, r.queued[5 + i]? = some t ∧ t.flags = 0 ∧
          t.tx_buffer = 1073414144 + 2 * (1024 * i) :=
  ⟨by decide,
   draw_submission_order Env.allOk ⟨rfl, rfl, fun _ => rfl⟩ 0 0 64 64 1073414144 1 (by decide)⟩

theorem fill_control_window (x y w h : Nat) (chunks : Int) (n : Nat) (hn : 4 ≤ n) :
    ∃ u1 u3,
      (fill_control x y w h chunks (List.replicate n calloc_trans)).getD 1 calloc_trans
        = { flags := SPI_TRANS_USE_TXDATA, length := 32, user := u1, tx_buffer := 0,
            tx_data := [u8 ((x : Int) >>> (8 : Nat)), u8 (and_0xff x),
              u8 (((x : Int) + w - 1) >>> (8 : Nat)), u8 (and_0xff ((x : Int) + w - 1))] } ∧
      (fill_control x y w h chunks (List.replicate n calloc_trans)).getD 3 calloc_trans
        = { flags := SPI_TRANS_USE_TXDATA, length := 32, user := u3, tx_buffer := 0,
            tx_data := [u8 ((y : Int) >>> (8 : Nat)), u8 (and_0xff y),
              u8 (((y : Int) + h - 1) >>> (8 : Nat)), u8 (and_0xff ((y : Int) + h - 1))] } := by
  unfold fill_control
  simp only [getD_upd, length_upd, List.length_replicate, getD_replicate_self]
  by_cases h1 : (4 + chunks).toNat = 1
  · refine ⟨some 3, none, ?_, ?_⟩
    · simp [h1, show 1 < n by omega, show 0 < n by omega, calloc_trans]
    · simp [h1, show 3 < n by omega, calloc_trans]
  · by_cases h3 : (4 + chunks).toNat = 3
    · refine ⟨none, some 3, ?_, ?_⟩
      · simp [h3, show 1 < n by omega, calloc_trans]
      · simp [h3, show 3 < n by omega, calloc_trans]
    · refine ⟨none, none, ?_, ?_⟩
      · simp [h1, show 1 < n by omega, calloc_trans]
      · simp [h3, show 3 < n by omega, calloc_trans]

theorem length_fill_control (x y w h : Nat) (chunks : Int) (trans : List spi_transaction_t) :
    (fill_control x y w h chunks trans).length = trans.length := by
  simp only [fill_control, length_upd]

theorem getElem?_of_getD {α : Type} (l : List α) (i : Nat) (d v : α) (hi : i < l.length)
    (hv : l.getD i d = v) : l[i]? = some v := by
  rw [List.getD_eq_getElem?_getD, List.getElem?_eq_getElem hi] at hv
  rw [List.getElem?_eq_getElem hi]
  exact congrArg some hv

theorem carries_window_bytes (t : spi_transaction_t) (a n : Nat) (hn : 1 ≤ n)
    (he : a + n - 1 ≤ 65535) (hf : t.flags = SPI_TRANS_USE_TXDATA) (hl : t.length = 32)
    (hd : t.tx_data = [u8 ((a : Int) >>> (8 : Nat)), u8 (and_0xff a),
      u8 (((a : Int) + n - 1) >>> (8 : Nat)), u8 (and_0xff ((a : Int) + n - 1))]) :
    carries_window t a (a + n - 1) := by
  rw [window_bytes a n hn he] at hd
  refine ⟨hf, hl, a / 256, a % 256, (a + n - 1) / 256, (a + n - 1) % 256, hd,
    ?_, ?_, ?_, ?_, ?_, ?_⟩ <;> omega

/-- C6: for `w ≥ 1`, `h ≥ 1`, `x + w - 1 ≤ 65535` and `y + h - 1 ≤ 65535`, the
transactions that lines 170-176 and 184-190 build in `trans[1]` and `trans[3]`,
whatever the chunk count and the size (at least 4) of the `calloc`ed array, carry 32
bits whose four bytes are the big-endian 16-bit encodings of `x`, `x + w - 1` and of
`y`, `y + h - 1`; for `x = 0, w = 240` the bytes are 00 00 00 EF and for
`y = 0, h = 320` they are 00 00 01 3F, the data bytes of the 0x2A and 0x2B rows of
`ili_init_cmds`.  When `w * h` is within `int` and the allocations and submissions
succeed, these two are the second and the fourth transaction queued. -/
theorem draw_window_encoding (x y w h : Nat) (hw : 1 ≤ w) (hh : 1 ≤ h)
    (hx : x + w - 1 ≤ 65535) (hy : y + h - 1 ≤ 65535) :
    (∀ (chunks : Int) (n : Nat), 4 ≤ n →
      ∃ col page,
        (fill_control x y w h chunks (List.replicate n calloc_trans))[1]? = some col ∧
        (fill_control x y w h chunks (List.replicate n calloc_trans))[3]? = some page ∧
        carries_window col x (x + w - 1) ∧ carries_window page y (y + h - 1) ∧
        (x = 0 → w = 240 → col.tx_data = [0x00, 0x00, 0x00, 0xEF] ∧
          ∃ c ∈ ili_init_cmds, c.cmd = 0x2A ∧ c.databytes = 4 ∧ c.data.take 4 = col.tx_data) ∧
        (y = 0 → h = 320 → page.tx_data = [0x00, 0x00, 0x01, 0x3F] ∧
          ∃ c ∈ ili_init_cmds, c.cmd = 0x2B ∧ c.databytes = 4 ∧
            c.data.take 4 = page.tx_data)) ∧
    (∀ (env : Env) (bitmap : Nat) (free_buffer : Int), env.Succeeds → w * h ≤ 2147483647 →
      ∃ r col page, ili_draw_bitmap env x y w h bitmap free_buffer = some r ∧
        r.queued[1]? = some col ∧ r.queued[3]? = some page ∧
        carries_window col x (x + w - 1) ∧ carries_window page y (y + h - 1)) := by
  constructor
  · intro chunks n hn
    obtain ⟨u1, u3, h1, h3⟩ := fill_control_window x y w h chunks n hn
    have hlen : (fill_control x y w h chunks (List.replicate n calloc_trans)).length = n := by
      rw [length_fill_control, List.length_replicate]
    refine ⟨_, _, getElem?_of_getD _ 1 _ _ (by omega) h1,
      getElem?_of_getD _ 3 _ _ (by omega) h3,
      carries_window_bytes _ x w hw hx rfl rfl rfl,
      carries_window_bytes _ y h hh hy rfl rfl rfl, ?_, ?_⟩
    · rintro rfl rfl
      exact ⟨by dsimp only; decide,
        { cmd := 0x2A, data := data16 [0x00, 0x00, 0x00, 0xEF], databytes := 4 },
        by decide, by dsimp only; decide⟩
    · rintro rfl rfl
      exact ⟨by dsimp only; decide,
        { cmd := 0x2B, data := data16 [0x00, 0x00, 0x01, 0x3f], databytes := 4 },
        by decide, by dsimp only; decide⟩
  · intro env bitmap free_buffer henv hp
    obtain ⟨r, hr, -, -, -, hq⟩ := draw_ok env henv x y w h bitmap free_buffer hp
    refine ⟨r, _, _, hr, by rw [hq]; rfl, by rw [hq]; rfl,
      carries_window_bytes _ x w hw hx rfl rfl rfl,
      carries_window_bytes _ y h hh hy rfl rfl rfl⟩

/-- Witness of `draw_window_encoding`: the full-screen window 240 x 320 at the origin,
as built in an array of 80 elements and as queued. -/
theorem draw_window_encoding_witness :
    (1 ≤ 240 ∧ 1 ≤ 320 ∧ 0 + 240 - 1 ≤ 65535 ∧ 0 + 320 - 1 ≤ 65535) ∧
    (∃ col page,
      (fill_control 0 0 240 320 75 (List.replicate 80 calloc_trans))[1]? = some col ∧
      (fill_control 0 0 240 320 75 (List.replicate 80 calloc_trans))[3]? = some page ∧
      col.tx_data = [0x00, 0x00, 0x00, 0xEF] ∧ page.tx_data = [0x00, 0x00, 0x01, 0x3F]) ∧
    ∃ r col page, ili_draw_bitmap Env.allOk 0 0 240 320 1073414144 0 = some r ∧
      r.queued[1]? = some col ∧ r.queued[3]? = some page ∧
      carries_window col 0 (0 + 240 - 1) ∧ carries_window page 0 (0 + 320 - 1) := by
  have hmain := draw_window_encoding 0 0 240 320 (by decide) (by decide) (by decide)
    (by decide)
  refine ⟨by decide, ?_, hmain.2 Env.allOk 1073414144 0 ⟨rfl, rfl, fun _ => rfl⟩ (by decide)⟩
  obtain ⟨col, page, hc, hpg, -, -, hcol, hpage⟩ := hmain.1 75 80 (by decide)
  exact ⟨col, page, hc, hpg, (hcol rfl rfl).1, (hpage rfl rfl).1⟩

/-! ## The D/C line -/

/-- C7, counterexample: for a transaction whose metadata is present with `dc = 2` the
callback selects level 0, although the tag is not Command (`dc` is not 0); so neither
"level 0 if and only if `dc = 0`" nor "every other value of `dc` gives level 1" holds. -/
theorem callback_dc_two_selects_command :
    ili_spi_pre_transfer_callback [{ dc := 2, free_buffer := 0, buffer := 0 }]
        { calloc_trans with user := some 0 } = some 0 ∧
    ¬ ∀ (userdata : List spi_transaction_user_data_t) (t : spi_transaction_t) (p : Nat)
        (u : spi_transaction_user_data_t), t.user = some p → userdata[p]? = some u →
        (ili_spi_pre_transfer_callback userdata t = some 0 ↔ u.dc = 0) := by
  refine ⟨by decide, fun hall => ?_⟩
  have h2 := hall [{ dc := 2, free_buffer := 0, buffer := 0 }]
    { calloc_trans with user := some 0 } 0 { dc := 2, free_buffer := 0, buffer := 0 } rfl rfl
  exact absurd (h2.mp (by decide)) (by decide)

/-- C7, amended: the callback selects the data level 1 exactly when the metadata is
absent (`user == NULL`) or its `dc` field is 1, and the command level 0 exactly when
the metadata is present with `dc` different from 1 (which includes the Command tag,
`dc = 0`). -/
theorem callback_level (userdata : List spi_transaction_user_data_t) (t : spi_transaction_t) :
    (ili_spi_pre_transfer_callback userdata t = some 1 ↔
      t.user = none ∨ ∃ p u, t.user = some p ∧ userdata[p]? = some u ∧ u.dc = 1) ∧
    (ili_spi_pre_transfer_callback userdata t = some 0 ↔
      ∃ p u, t.user = some p ∧ userdata[p]? = some u ∧ u.dc ≠ 1) := by
  unfold ili_spi_pre_transfer_callback
  cases hu : t.user with
  | none => simp
  | some p =>
    cases hg : userdata[p]? with
    | none => simp [hg]
    | some u =>
      by_cases hd : u.dc = 1 <;> simp [hg, hd]

theorem callback_chunk (bitmap : Nat) (free_buffer : Int) (p i : Nat) :
    ili_spi_pre_transfer_callback (final_userdata bitmap free_buffer) (chunk_trans bitmap p i)
      = some 1 := by
  unfold ili_spi_pre_transfer_callback chunk_trans
  by_cases hi : i + 1 = (p - 1) / 1024 + 1
  · simp only [if_pos hi]; rfl
  · simp only [if_neg hi]

/-- C8: for a valid rectangle, the callback applied to the queued transactions in
submission order selects command, data, command, data, command (0, 1, 0, 1, 0) for the
five control transactions and data (1) for each of the `N = (w * h + 1023) / 1024`
payload chunks; the chunks before the last carry no metadata (`user == NULL`), the
last one carries `&userdata[3]`, whose `dc` is 1. -/
theorem draw_dc_levels (env : Env) (henv : env.Succeeds) (x y w h bitmap : Nat)
    (free_buffer : Int) (hv : valid_rect x y w h) :
    ∃ r, ili_draw_bitmap env x y w h bitmap free_buffer = some r ∧
      r.queued.map (ili_spi_pre_transfer_callback r.userdata)
        = [some 0, some 1, some 0, some 1, some 0] ++
            List.replicate ((w * h + 1023) / 1024) (some 1) ∧
      (∀ i, i + 1 < (w * h + 1023) / 1024 → ∃ t, r.queued[5 + i]? = some t ∧ t.user = none) ∧
      (∃ t u, r.queued[4 + (w * h + 1023) / 1024]? = some t ∧ t.user = some 3 ∧
        r.userdata[3]? = some u ∧ u.dc = 1) := by
  obtain ⟨-, -, -, -, hw, hh, -, -, hp⟩ := hv
  obtain ⟨r, hr, -, -, hud, hq⟩ := draw_ok env henv x y w h bitmap free_buffer hp
  have hpos : 1 ≤ w * h := Nat.mul_pos hw hh
  have hN := ceil_chunks _ hpos
  refine ⟨r, hr, ?_, ?_, ?_⟩
  · rw [hq, hud, List.map_append, List.map_map, ← hN]
    congr 1
    rw [List.eq_replicate_iff]
    refine ⟨by simp, ?_⟩
    intro b hb
    obtain ⟨i, -, rfl⟩ := List.mem_map.mp hb
    exact callback_chunk bitmap free_buffer (w * h) i
  · intro i hi
    refine ⟨chunk_trans bitmap (w * h) i, ?_, ?_⟩
    · rw [hq, List.getElem?_append_right (by simp [control_trans])]
      simp [control_trans, List.getElem?_range (show i < (w * h - 1) / 1024 + 1 by omega)]
    · have : ¬ i + 1 = (w * h - 1) / 1024 + 1 := by omega
      simp [chunk_trans, this]
  · refine ⟨chunk_trans bitmap (w * h) ((w * h - 1) / 1024), _, ?_, ?_, by rw [hud]; rfl, rfl⟩
    · rw [hq, List.getElem?_append_right (by simp [control_trans]; omega)]
      have e : 4 + (w * h + 1023) / 1024 - (control_trans x y w h).length
          = (w * h - 1) / 1024 := by
        simp only [control_trans, List.length_cons, List.length_nil]; omega
      rw [e]
      simp [List.getElem?_range (show (w * h - 1) / 1024 < (w * h - 1) / 1024 + 1 by omega)]
    · simp [chunk_trans]

/-- Witness of `draw_dc_levels`: a 64 x 64 draw at the origin, four chunks. -/
theorem draw_dc_levels_witness :
    valid_rect 0 0 64 64 ∧
    ∃ r, ili_draw_bitmap Env.allOk 0 0 64 64 1073414144 1 = some r ∧
      r.queued.map (ili_spi_pre_transfer_callback r.userdata)
        = [some 0, some 1, some 0, some 1, some 0, some 1, some 1, some 1, some 1] := by
  refine ⟨by decide, ?_⟩
  obtain ⟨r, hr, hl, -⟩ := draw_dc_levels Env.allOk ⟨rfl, rfl, fun _ => rfl⟩ 0 0 64 64
    1073414144 1 (by decide)
  exact ⟨r, hr, hl⟩


/-! ## Release of the bitmap -/

theorem send_line_finish_append (userdata : List spi_transaction_user_data_t)
    (l1 l2 : List spi_transaction_t) (f1 f2 : List Nat)
    (h1 : send_line_finish userdata l1 = some f1) (h2 : send_line_finish userdata l2 = some f2) :
    send_line_finish userdata (l1 ++ l2) = some (f1 ++ f2) := by
  induction l1 generalizing f1 with
  | nil =>
    simp only [send_line_finish, Option.some.injEq] at h1
    subst h1
    simpa using h2
  | cons t l ih =>
    simp only [send_line_finish, List.cons_append] at h1 ⊢
    cases hb : send_line_finish_body userdata t with
    | none => simp [hb] at h1
    | some f =>
      cases hl : send_line_finish userdata l with
      | none => simp [hb, hl] at h1
      | some fs =>
        simp only [hb, hl, Option.some.injEq] at h1
        subst h1
        simp [ih fs hl, List.append_assoc]

theorem send_line_finish_no_free (userdata : List spi_transaction_user_data_t)
    (l : List spi_transaction_t) (h : ∀ t ∈ l, send_line_finish_body userdata t = some []) :
    send_line_finish userdata l = some [] := by
  induction l with
  | nil => rfl
  | cons t l ih =>
    have ht := h t (List.mem_cons_self t l)
    have hl := ih fun t' ht' => h t' (List.mem_cons_of_mem t ht')
    simp [send_line_finish, ht, hl]

theorem body_control (x y w h bitmap : Nat) (free_buffer : Int) :
    ∀ t ∈ control_trans x y w h,
      send_line_finish_body (final_userdata bitmap free_buffer) t = some [] := by
  intro t ht
  simp only [control_trans, List.mem_cons, List.mem_singleton, List.not_mem_nil, or_false] at ht
  rcases ht with rfl | rfl | rfl | rfl | rfl <;> rfl

theorem body_chunk_not_last (bitmap : Nat) (free_buffer : Int) (p i : Nat)
    (hi : i + 1 ≠ (p - 1) / 1024 + 1) :
    send_line_finish_body (final_userdata bitmap free_buffer) (chunk_trans bitmap p i)
      = some [] := by
  simp [send_line_finish_body, chunk_trans, hi]

theorem body_chunk_last (bitmap : Nat) (free_buffer : Int) (p : Nat) :
    send_line_finish_body (final_userdata bitmap free_buffer)
        (chunk_trans bitmap p ((p - 1) / 1024))
      = if u8 free_buffer ≠ 0 then some [bitmap] else some [] := by
  simp [send_line_finish_body, chunk_trans, final_userdata]

/-- C9: for a valid rectangle drawn with an ownership flag that is true (the stored
8-bit flag, `free_buffer % 256`, is nonzero; `free_buffer = 1` in particular), the
completion loop run over the draw's `5 + N` transactions in submission order calls
`free` exactly once, on the caller's bitmap pointer, and the call is made for the
completion of the last payload chunk: the first `4 + N` completions free nothing. -/
theorem draw_frees_bitmap_once (env : Env) (henv : env.Succeeds) (x y w h bitmap : Nat)
    (free_buffer : Int) (hv : valid_rect x y w h) (hf : free_buffer % 256 ≠ 0) :
    ∃ r, ili_draw_bitmap env x y w h bitmap free_buffer = some r ∧
      r.queued.length = 5 + (w * h + 1023) / 1024 ∧
      send_line_finish r.userdata r.queued = some [bitmap] ∧
      send_line_finish r.userdata (r.queued.take (4 + (w * h + 1023) / 1024)) = some [] ∧
      ∃ last, r.queued[4 + (w * h + 1023) / 1024]? = some last ∧
        send_line_finish_body r.userdata last = some [bitmap] := by
  obtain ⟨-, -, -, -, hw, hh, -, -, hp⟩ := hv
  obtain ⟨r, hr, -, -, hud, hq⟩ := draw_ok env henv x y w h bitmap free_buffer hp
  have hpos : 1 ≤ w * h := Nat.mul_pos hw hh
  have hN := ceil_chunks _ hpos
  have hf8 : u8 free_buffer ≠ 0 := by simp only [u8]; omega
  -- the submissions: control, the chunks before the last, the last chunk
  have hsplit : r.queued = (control_trans x y w h ++
      (List.range ((w * h - 1) / 1024)).map (chunk_trans bitmap (w * h))) ++
      [chunk_trans bitmap (w * h) ((w * h - 1) / 1024)] := by
    rw [hq, List.range_succ, List.map_append, List.append_assoc]; rfl
  have hlen : (control_trans x y w h ++
      (List.range ((w * h - 1) / 1024)).map (chunk_trans bitmap (w * h))).length
        = 4 + (w * h + 1023) / 1024 := by
    rw [length_control_append, List.length_map, List.length_range]; omega
  have hfront : send_line_finish r.userdata (control_trans x y w h ++
      (List.range ((w * h - 1) / 1024)).map (chunk_trans bitmap (w * h))) = some [] := by
    rw [hud]
    apply send_line_finish_no_free
    intro t ht
    rcases List.mem_append.mp ht with hc | hc
    · exact body_control x y w h bitmap free_buffer t hc
    · obtain ⟨i, hi, rfl⟩ := List.mem_map.mp hc
      have hi : i < (w * h - 1) / 1024 := List.mem_range.mp hi
      exact body_chunk_not_last bitmap free_buffer (w * h) i (by omega)
  have hlast : send_line_finish_body r.userdata
      (chunk_trans bitmap (w * h) ((w * h - 1) / 1024)) = some [bitmap] := by
    rw [hud, body_chunk_last, if_pos hf8]
  refine ⟨r, hr, ?_, ?_, ?_, ?_⟩
  · rw [hq, length_control_append]; simp [hN]
  · rw [hsplit]
    exact send_line_finish_append _ _ _ [] [bitmap] hfront (by simp [send_line_finish, hlast])
  · rw [hsplit, ← hlen, List.take_left']
    · exact hfront
    · rfl
  · refine ⟨_, ?_, hlast⟩
    rw [hsplit, ← hlen, List.getElem?_append_right (le_refl _)]
    simp

/-- Witness of `draw_frees_bitmap_once`: the 32 x 32 draw with `free_buffer = 1`; the
six completions free the bitmap once. -/
theorem draw_frees_bitmap_once_witness :
    (valid_rect 0 0 32 32 ∧ (1 : Int) % 256 ≠ 0) ∧
    ∃ r, ili_draw_bitmap Env.allOk 0 0 32 32 1073414144 1 = some r ∧
      r.queued.length = 5 + (32 * 32 + 1023) / 1024 ∧
      send_line_finish r.userdata r.queued = some [1073414144] ∧
      send_line_finish r.userdata (r.queued.take (4 + (32 * 32 + 1023) / 1024)) = some [] ∧
      ∃ last, r.queued[4 + (32 * 32 + 1023) / 1024]? = some last ∧
        send_line_finish_body r.userdata last = some [1073414144] :=
  ⟨⟨by decide, by decide⟩,
   draw_frees_bitmap_once Env.allOk ⟨rfl, rfl, fun _ => rfl⟩ 0 0 32 32 1073414144 1
     (by decide) (by decide)⟩

/-- C10: for every rectangle drawn with `free_buffer = 0` (and `w * h` within `int`),
the completion loop run over all of the draw's transactions calls `free` not at all:
every metadata record a queued transaction points to, the three command records
included, has `free_buffer = 0`. -/
theorem draw_retained_never_freed (env : Env) (henv : env.Succeeds) (x y w h bitmap : Nat)
    (hp : w * h ≤ 2147483647) :
    ∃ r, ili_draw_bitmap env x y w h bitmap 0 = some r ∧
      send_line_finish r.userdata r.queued = some [] ∧
      (∀ t ∈ r.queued, send_line_finish_body r.userdata t = some []) ∧
      (∀ t ∈ r.queued, ∀ p u, t.user = some p → r.userdata[p]? = some u → u.free_buffer = 0) ∧
      (∃ t0 t2 t4, r.queued[0]? = some t0 ∧ r.queued[2]? = some t2 ∧ r.queued[4]? = some t4 ∧
        t0.user = some 0 ∧ t2.user = some 1 ∧ t4.user = some 2) := by
  obtain ⟨r, hr, -, -, hud, hq⟩ := draw_ok env henv x y w h bitmap 0 hp
  have hall : ∀ u ∈ r.userdata, u.free_buffer = 0 := by
    rw [hud]
    intro u hu
    simp only [final_userdata, List.mem_cons, List.mem_singleton, List.not_mem_nil,
      or_false] at hu
    rcases hu with rfl | rfl | rfl | rfl <;> rfl
  have hbody : ∀ t ∈ r.queued, send_line_finish_body r.userdata t = some [] := by
    intro t ht
    rw [hq] at ht
    rw [hud]
    rcases List.mem_append.mp ht with hc | hc
    · exact body_control x y w h bitmap 0 t hc
    · obtain ⟨i, -, rfl⟩ := List.mem_map.mp hc
      by_cases hi : i + 1 = (w * h - 1) / 1024 + 1
      · have hi2 : i = (w * h - 1) / 1024 := by omega
        rw [hi2, body_chunk_last]
        simp [u8]
      · exact body_chunk_not_last bitmap 0 (w * h) i hi
  refine ⟨r, hr, send_line_finish_no_free _ _ hbody, hbody, ?_, ?_⟩
  · intro t _ p u _ hg
    exact hall u (List.getElem?_mem hg)
  · rw [hq]
    refine ⟨{ flags := SPI_TRANS_USE_TXDATA, length := 8, user := some 0, tx_buffer := 0,
              tx_data := [0x2A, 0, 0, 0] },
            { flags := SPI_TRANS_USE_TXDATA, length := 8, user := some 1, tx_buffer := 0,
              tx_data := [0x2B, 0, 0, 0] },
            { flags := SPI_TRANS_USE_TXDATA, length := 8, user := some 2, tx_buffer := 0,
              tx_data := [0x2C, 0, 0, 0] }, rfl, rfl, ?_, rfl, rfl, rfl⟩
    rw [List.getElem?_append_left (by simp [control_trans])]
    rfl

/-- Witness of `draw_retained_never_freed`: a 10 x 10 draw with a retained buffer. -/
theorem draw_retained_never_freed_witness :
    10 * 10 ≤ 2147483647 ∧
    ∃ r, ili_draw_bitmap Env.allOk 0 0 10 10 1073414144 0 = some r ∧
      send_line_finish r.userdata r.queued = some [] := by
  refine ⟨by decide, ?_⟩
  obtain ⟨r, hr, hs, -⟩ := draw_retained_never_freed Env.allOk ⟨rfl, rfl, fun _ => rfl⟩
    0 0 10 10 1073414144 (by decide)
  exact ⟨r, hr, hs⟩

/-! ## Degenerate rectangles -/

/-- C11, counterexample: a call with `w = 0` (and `h = 5`) is not rejected; six
transactions are passed to `spi_device_queue_trans`. -/
theorem draw_zero_width_queues_six :
    (ili_draw_bitmap Env.allOk 0 0 0 5 1073414144 0).map
      (fun r => (r.returned, r.queued.length, (r.queued.drop 5).map fun t => t.length))
      = some (true, 6, [0]) := by
  decide

/-- C11, amended: a call with `w = 0` or `h = 0` is not validated; when both allocations
and all submissions succeed it returns normally after queueing the five control
transactions and one payload transaction that starts at the bitmap and declares 0
bits. -/
theorem draw_zero_side (env : Env) (henv : env.Succeeds) (x y w h bitmap : Nat)
    (free_buffer : Int) (hz : w = 0 ∨ h = 0) :
    ∃ r, ili_draw_bitmap env x y w h bitmap free_buffer = some r ∧ r.returned = true ∧
      r.queued.length = 6 ∧
      ∃ t, r.queued[5]? = some t ∧ t.length = 0 ∧ t.tx_buffer = bitmap := by
  have hwh : w * h = 0 := by rcases hz with rfl | rfl <;> simp
  obtain ⟨r, hr, hret, -, -, hq⟩ :=
    draw_ok env henv x y w h bitmap free_buffer (by omega)
  rw [hwh] at hq
  refine ⟨r, hr, hret, by rw [hq]; rfl, chunk_trans bitmap 0 0, by rw [hq]; rfl, rfl, rfl⟩

/-- Witness of `draw_zero_side`: `w = 0`, `h = 5`. -/
theorem draw_zero_side_witness :
    ((0 : Nat) = 0 ∨ (5 : Nat) = 0) ∧
    ∃ r, ili_draw_bitmap Env.allOk 0 0 0 5 1073414144 0 = some r ∧ r.returned = true ∧
      r.queued.length = 6 ∧
      ∃ t, r.queued[5]? = some t ∧ t.length = 0 ∧ t.tx_buffer = 1073414144 :=
  ⟨Or.inl rfl,
   draw_zero_side Env.allOk ⟨rfl, rfl, fun _ => rfl⟩ 0 0 0 5 1073414144 0 (Or.inl rfl)⟩

/-! ## The guard of the payload loop -/

/-- C18: with `chunks = (w * h - 1) / 1024 + 1`, every index `i < chunks` of the payload
loop satisfies the guard `i * 1024 < w * h` as soon as `w * h ≥ 1`; so, for a draw whose
allocations and submissions succeed, every payload transaction declares 16384 bits
when `w * h ≥ 1`, and a payload transaction with another length (the branch
`16 * remain`) occurs only for `w * h = 0`. -/
theorem draw_guard_always_true (env : Env) (henv : env.Succeeds) (x y w h bitmap : Nat)
    (free_buffer : Int) (hp : w * h ≤ 2147483647) :
    (1 ≤ w * h → ∀ i : Nat, (i : Int) < Int.tdiv ((w : Int) * (h : Int) - 1) 1024 + 1 →
      (i : Int) * 1024 < (w : Int) * (h : Int)) ∧
    ∃ r, ili_draw_bitmap env x y w h bitmap free_buffer = some r ∧
      (1 ≤ w * h → ∀ t ∈ r.queued.drop 5, t.length = 16384) ∧
      (∀ t ∈ r.queued.drop 5, t.length ≠ 16384 →
        w * h = 0 ∧ t.length = 16 * (w * h % 1024)) := by
  constructor
  · intro hpos i hi
    rw [chunks_mul_eq] at hi
    rw [← Nat.cast_mul]
    omega
  · obtain ⟨r, hr, -, -, -, hq⟩ := draw_ok env henv x y w h bitmap free_buffer hp
    have hlen : ∀ t ∈ r.queued.drop 5, ∃ i, i < (w * h - 1) / 1024 + 1 ∧
        t.length = if 1024 * i < w * h then 16384 else 16 * (w * h % 1024) := by
      rw [hq, drop_control]
      intro t ht
      obtain ⟨i, hi, rfl⟩ := List.mem_map.mp ht
      exact ⟨i, List.mem_range.mp hi, rfl⟩
    refine ⟨r, hr, ?_, ?_⟩
    · intro hpos t ht
      obtain ⟨i, hi, hl⟩ := hlen t ht
      rw [hl, if_pos (by omega)]
    · intro t ht hne
      obtain ⟨i, hi, hl⟩ := hlen t ht
      by_cases hg : 1024 * i < w * h
      · rw [hl, if_pos hg] at hne
        exact absurd rfl hne
      · rw [if_neg hg] at hl
        exact ⟨by omega, hl⟩

/-- Witness of `draw_guard_always_true`: a 10 x 10 draw. -/
theorem draw_guard_always_true_witness :
    10 * 10 ≤ 2147483647 ∧
    ∃ r, ili_draw_bitmap Env.allOk 0 0 10 10 1073414144 0 = some r ∧
      ∀ t ∈ r.queued.drop 5, t.length = 16384 := by
  obtain ⟨-, r, hr, hall, -⟩ := draw_guard_always_true Env.allOk ⟨rfl, rfl, fun _ => rfl⟩
    0 0 10 10 1073414144 0 (by decide)
  exact ⟨by decide, r, hr, hall (by decide)⟩

/-! ## What the completion loop releases -/

theorem send_line_finish_draw (x y w h bitmap : Nat) (free_buffer : Int) :
    send_line_finish (final_userdata bitmap free_buffer)
        (control_trans x y w h ++
          (List.range ((w * h - 1) / 1024 + 1)).map (chunk_trans bitmap (w * h)))
      = some (if u8 free_buffer ≠ 0 then [bitmap] else []) := by
  rw [List.range_succ, List.map_append, ← List.append_assoc]
  have hfront : send_line_finish (final_userdata bitmap free_buffer) (control_trans x y w h ++
      (List.range ((w * h - 1) / 1024)).map (chunk_trans bitmap (w * h))) = some [] := by
    apply send_line_finish_no_free
    intro t ht
    rcases List.mem_append.mp ht with hc | hc
    · exact body_control x y w h bitmap free_buffer t hc
    · obtain ⟨i, hi, rfl⟩ := List.mem_map.mp hc
      have hi : i < (w * h - 1) / 1024 := List.mem_range.mp hi
      exact body_chunk_not_last bitmap free_buffer (w * h) i (by omega)
  have hlast : send_line_finish (final_userdata bitmap free_buffer)
      (List.map (chunk_trans bitmap (w * h)) [(w * h - 1) / 1024])
        = some (if u8 free_buffer ≠ 0 then [bitmap] else []) := by
    simp only [List.map_cons, List.map_nil, send_line_finish, body_chunk_last]
    by_cases hf : u8 free_buffer ≠ 0
    · simp only [if_pos hf, List.append_nil]
    · simp only [if_neg hf, List.append_nil]
  simpa using send_line_finish_append _ _ _ _ _ hfront hlast

/-- C13, counterexample: run over all six completions of a 32 x 32 draw, the completion
loop passes to `free` nothing when the buffer is retained and only the bitmap pointer
when it is handed over; the `calloc`ed `trans` and `userdata` arrays are in neither
trace. -/
theorem draw_32x32_free_traces :
    (ili_draw_bitmap Env.allOk 0 0 32 32 1073414144 0).bind
        (fun r => send_line_finish r.userdata r.queued) = some [] ∧
    (ili_draw_bitmap Env.allOk 0 0 32 32 1073414144 1).bind
        (fun r => send_line_finish r.userdata r.queued) = some [1073414144] := by
  decide

/-- C13, amended: after the completion loop has processed all completions of one draw
of a valid rectangle, it has called `free` at most once, and only on the caller's
bitmap pointer (exactly when the stored ownership flag is nonzero); no other address,
so neither the `trans` nor the `userdata` array, has been passed to `free`. -/
theorem draw_frees_only_bitmap (env : Env) (henv : env.Succeeds) (x y w h bitmap : Nat)
    (free_buffer : Int) (hv : valid_rect x y w h) :
    ∃ r frees, ili_draw_bitmap env x y w h bitmap free_buffer = some r ∧
      send_line_finish r.userdata r.queued = some frees ∧
      frees = (if free_buffer % 256 ≠ 0 then [bitmap] else []) ∧
      ∀ a, a ≠ bitmap → a ∉ frees := by
  obtain ⟨-, -, -, -, -, -, -, -, hp⟩ := hv
  obtain ⟨r, hr, -, -, hud, hq⟩ := draw_ok env henv x y w h bitmap free_buffer hp
  have h8 : u8 free_buffer ≠ 0 ↔ free_buffer % 256 ≠ 0 := by simp only [u8]; omega
  refine ⟨r, _, hr, by rw [hud, hq]; exact send_line_finish_draw x y w h bitmap free_buffer,
    ?_, ?_⟩
  · by_cases hf : free_buffer % 256 ≠ 0
    · rw [if_pos hf, if_pos (h8.mpr hf)]
    · rw [if_neg hf, if_neg (fun hu => hf (h8.mp hu))]
  · intro a ha
    split <;> simp [ha]

/-- Witness of `draw_frees_only_bitmap`: a 32 x 32 draw with `free_buffer = 1`. -/
theorem draw_frees_only_bitmap_witness :
    valid_rect 0 0 32 32 ∧
    ∃ r frees, ili_draw_bitmap Env.allOk 0 0 32 32 1073414144 1 = some r ∧
      send_line_finish r.userdata r.queued = some frees ∧
      frees = (if (1 : Int) % 256 ≠ 0 then [1073414144] else []) ∧
      ∀ a, a ≠ 1073414144 → a ∉ frees :=
  ⟨by decide,
   draw_frees_only_bitmap Env.allOk ⟨rfl, rfl, fun _ => rfl⟩ 0 0 32 32 1073414144 1
     (by decide)⟩

/-- C17, the code at the failing input: for `free_buffer = 256` (nonzero, so true in C)
the flag stored in `userdata[3]` is 0 and the completion loop, run over all six
completions of the 32 x 32 draw, frees nothing. -/
theorem draw_flag_256_not_freed :
    (ili_draw_bitmap Env.allOk 0 0 32 32 1073414144 256).map
      (fun r => (r.userdata.map fun u => u.free_buffer,
        send_line_finish r.userdata r.queued)) = some ([0, 0, 0, 0], some []) := by
  decide

/-! ## Failing submissions -/

theorem queue_control_upto (env : Env) (trans : List spi_transaction_t) (n i : Nat)
    (q : List spi_transaction_t) (h : ∀ j, j < n → env.queue_trans_ok (q.length + j) = true) :
    queue_control env trans n i q
      = (q ++ (List.range' i n).map fun j => trans.getD j calloc_trans, true) := by
  induction n generalizing i q with
  | zero => simp [queue_control]
  | succ n ih =>
    have h0 : env.queue_trans_ok q.length = true := by simpa using h 0 (by omega)
    simp only [queue_control, h0, if_true]
    rw [ih]
    · simp [List.range'_succ]
    · intro j hj
      have := h (j + 1) (by omega)
      simpa [Nat.add_assoc, Nat.add_comm 1 j] using this

theorem queue_control_fail (env : Env) (trans : List spi_transaction_t) (n i : Nat)
    (q : List spi_transaction_t) (m : Nat) (hm : m < n)
    (h : ∀ j, j < m → env.queue_trans_ok (q.length + j) = true)
    (hf : env.queue_trans_ok (q.length + m) = false) :
    queue_control env trans n i q
      = (q ++ (List.range' i (m + 1)).map fun j => trans.getD j calloc_trans, false) := by
  induction n generalizing i q m with
  | zero => omega
  | succ n ih =>
    cases m with
    | zero =>
      have h0 : env.queue_trans_ok q.length = false := by simpa using hf
      simp [queue_control, h0]
    | succ m =>
      have h0 : env.queue_trans_ok q.length = true := by simpa using h 0 (by omega)
      simp only [queue_control, h0, if_true]
      rw [ih (i + 1) _ m (by omega)]
      · simp [List.range'_succ]
      · intro j hj
        have := h (j + 1) (by omega)
        simpa [Nat.add_assoc, Nat.add_comm 1 j] using this
      · simpa [Nat.add_assoc, Nat.add_comm 1 m] using hf

theorem queue_chunks_upto (env : Env) (bitmap : Nat) (pixel remain : Int) (n i : Nat)
    (trans q : List spi_transaction_t) (hlen : 5 + i + n ≤ trans.length)
    (h : ∀ j, j < n → env.queue_trans_ok (q.length + j) = true) :
    (queue_chunks env bitmap pixel remain n i trans q).2
      = (q ++ (List.range' i n).map fun j =>
          fill_chunk bitmap pixel remain j (trans.getD (5 + j) calloc_trans), true) := by
  induction n generalizing i trans q with
  | zero => simp [queue_chunks]
  | succ n ih =>
    have h0 : env.queue_trans_ok q.length = true := by simpa using h 0 (by omega)
    simp only [queue_chunks, h0, if_true]
    rw [ih]
    · simp only [List.range'_succ, List.map_cons, List.append_assoc, List.singleton_append]
      congr 2
      congr 1
      · rw [getD_upd, getD_upd, length_upd, if_pos ⟨rfl, by omega⟩, if_pos ⟨rfl, by omega⟩]
        rfl
      · apply List.map_congr_left
        intro j hj
        rw [List.mem_range'_1] at hj
        rw [getD_upd, if_neg (by omega), getD_upd, if_neg (by omega)]
    · simp [length_upd]; omega
    · intro j hj
      have := h (j + 1) (by omega)
      simpa [Nat.add_assoc, Nat.add_comm 1 j] using this

theorem queue_chunks_fail (env : Env) (bitmap : Nat) (pixel remain : Int) (n i : Nat)
    (trans q : List spi_transaction_t) (hlen : 5 + i + n ≤ trans.length)
    (m : Nat) (hm : m < n) (h : ∀ j, j < m → env.queue_trans_ok (q.length + j) = true)
    (hf : env.queue_trans_ok (q.length + m) = false) :
    (queue_chunks env bitmap pixel remain n i trans q).2
      = (q ++ (List.range' i (m + 1)).map fun j =>
          fill_chunk bitmap pixel remain j (trans.getD (5 + j) calloc_trans), false) := by
  induction n generalizing i trans q m with
  | zero => omega
  | succ n ih =>
    cases m with
    | zero =>
      have h0 : env.queue_trans_ok q.length = false := by simpa using hf
      simp only [queue_chunks, h0, Bool.false_eq_true, if_false, List.range'_succ,
        List.range'_zero, List.map_cons, List.map_nil]
      congr 3
      rw [getD_upd, getD_upd, length_upd, if_pos ⟨rfl, by omega⟩, if_pos ⟨rfl, by omega⟩]
      rfl
    | succ m =>
      have h0 : env.queue_trans_ok q.length = true := by simpa using h 0 (by omega)
      simp only [queue_chunks, h0, if_true]
      rw [ih (i + 1) _ _ (by simp [length_upd]; omega) m (by omega)]
      · simp only [List.range'_succ (n := m + 1), List.map_cons, List.append_assoc,
          List.singleton_append]
        congr 2
        congr 1
        · rw [getD_upd, getD_upd, length_upd, if_pos ⟨rfl, by omega⟩, if_pos ⟨rfl, by omega⟩]
          rfl
        · apply List.map_congr_left
          intro j hj
          rw [List.mem_range'_1] at hj
          rw [getD_upd, if_neg (by omega), getD_upd, if_neg (by omega)]
      · intro j hj
        have := h (j + 1) (by omega)
        simpa [Nat.add_assoc, Nat.add_comm 1 j] using this
      · simpa [Nat.add_assoc, Nat.add_comm 1 m] using hf

/-- The `trans` array when the submissions start. -/
theorem draw_unfold (env : Env) (h1 : env.calloc_trans_ok = true)
    (h2 : env.calloc_userdata_ok = true) (x y w h bitmap : Nat) (free_buffer : Int)
    (hp : w * h ≤ 2147483647) :
    ∃ T : List spi_transaction_t,
      T.length = 5 + ((w * h - 1) / 1024 + 1) ∧
      (∀ n, (List.range' 0 n).map (fun j => fill_chunk bitmap ((w : Int) * (h : Int))
          ((w * h % 1024 : Nat) : Int) j (T.getD (5 + j) calloc_trans))
        = (List.range n).map (chunk_trans bitmap (w * h))) ∧
      (List.range' 0 5).map (fun j => T.getD j calloc_trans) = control_trans x y w h ∧
      ili_draw_bitmap env x y w h bitmap free_buffer =
        if (queue_control env T 5 0 []).2 = false then
          some { returned := false, trans := T, userdata := final_userdata bitmap free_buffer,
                 queued := (queue_control env T 5 0 []).1 }
        else
          some { returned := (queue_chunks env bitmap ((w : Int) * (h : Int))
                    ((w * h % 1024 : Nat) : Int) ((w * h - 1) / 1024 + 1) 0 T
                    (queue_control env T 5 0 []).1).2.2,
                 trans := (queue_chunks env bitmap ((w : Int) * (h : Int))
                    ((w * h % 1024 : Nat) : Int) ((w * h - 1) / 1024 + 1) 0 T
                    (queue_control env T 5 0 []).1).1,
                 userdata := final_userdata bitmap free_buffer,
                 queued := (queue_chunks env bitmap ((w : Int) * (h : Int))
                    ((w * h % 1024 : Nat) : Int) ((w * h - 1) / 1024 + 1) 0 T
                    (queue_control env T 5 0 []).1).2.1 } := by
  have hpi : ¬ INT_MAX < (w : Int) * (h : Int) := by
    have : ((w * h : Nat) : Int) ≤ 2147483647 := by exact_mod_cast hp
    simp only [INT_MAX]; push_cast at this; omega
  refine ⟨control_trans x y w h ++
      upd (List.replicate ((w * h - 1) / 1024 + 1) calloc_trans) ((w * h - 1) / 1024)
        fun t => { t with user := some 3 }, ?_, ?_, rfl, ?_⟩
  · simp only [List.length_append, length_upd, List.length_replicate, control_trans,
      List.length_cons, List.length_nil]
  · intro n
    rw [List.range_eq_range']
    apply List.map_congr_left
    intro j _
    exact fill_chunk_calloc x y bitmap w h j
  · unfold ili_draw_bitmap
    simp only [hpi, h1, h2, if_false]
    rw [chunks_mul_eq, remain_mul_eq, fill_control_calloc, fill_userdata_calloc]
    simp only [Int.toNat_ofNat, Bool.true_eq_false, if_false]

theorem draw_ok_upto (env : Env) (h1 : env.calloc_trans_ok = true)
    (h2 : env.calloc_userdata_ok = true) (x y w h bitmap : Nat) (free_buffer : Int)
    (hp : w * h ≤ 2147483647)
    (hall : ∀ j, j < 5 + ((w * h - 1) / 1024 + 1) → env.queue_trans_ok j = true) :
    ∃ r, ili_draw_bitmap env x y w h bitmap free_buffer = some r ∧ r.returned = true ∧
      r.queued = control_trans x y w h ++
        (List.range ((w * h - 1) / 1024 + 1)).map (chunk_trans bitmap (w * h)) := by
  obtain ⟨T, hT, hch, hct, heq⟩ := draw_unfold env h1 h2 x y w h bitmap free_buffer hp
  have hc : queue_control env T 5 0 [] = (control_trans x y w h, true) := by
    rw [queue_control_upto env T 5 0 [] (fun j hj => hall _ (by simp; omega)), hct]
    rfl
  rw [hc] at heq
  simp only [Bool.true_eq_false, if_false] at heq
  have hq := queue_chunks_upto env bitmap ((w : Int) * (h : Int)) ((w * h % 1024 : Nat) : Int)
    ((w * h - 1) / 1024 + 1) 0 T (control_trans x y w h) (by omega)
    (fun j hj => hall _ (by simp [control_trans]; omega))
  rw [hch] at hq
  refine ⟨_, heq, ?_, ?_⟩
  · show (queue_chunks _ _ _ _ _ _ _ _).2.2 = true
    rw [hq]
  · show (queue_chunks _ _ _ _ _ _ _ _).2.1 = _
    rw [hq]

theorem draw_fail_at (env : Env) (h1 : env.calloc_trans_ok = true)
    (h2 : env.calloc_userdata_ok = true) (x y w h bitmap : Nat) (free_buffer : Int)
    (hp : w * h ≤ 2147483647) (k : Nat) (hk : k < 5 + ((w * h - 1) / 1024 + 1))
    (hbefore : ∀ j, j < k → env.queue_trans_ok j = true)
    (hfail : env.queue_trans_ok k = false) :
    ∃ r, ili_draw_bitmap env x y w h bitmap free_buffer = some r ∧ r.returned = false ∧
      r.queued = (control_trans x y w h ++
        (List.range ((w * h - 1) / 1024 + 1)).map (chunk_trans bitmap (w * h))).take (k + 1) := by
  obtain ⟨T, hT, hch, hct, heq⟩ := draw_unfold env h1 h2 x y w h bitmap free_buffer hp
  have hclen : (control_trans x y w h).length = 5 := rfl
  by_cases hk5 : k < 5
  · -- the failing submission is a control transaction
    have hc := queue_control_fail env T 5 0 [] k hk5 (fun j hj => by simpa using hbefore j hj)
      (by simpa using hfail)
    rw [hc] at heq
    simp only [if_true, List.nil_append] at heq
    refine ⟨_, heq, rfl, ?_⟩
    show List.map (fun j => T.getD j calloc_trans) (List.range' 0 (k + 1)) = _
    rw [List.take_append_of_le_length (by omega), ← hct, ← List.range_eq_range',
      ← List.range_eq_range', ← List.map_take, List.take_range,
      Nat.min_eq_left (by omega)]
  · -- the failing submission is payload chunk `k - 5`
    have hc : queue_control env T 5 0 [] = (control_trans x y w h, true) := by
      rw [queue_control_upto env T 5 0 [] (fun j hj => hbefore _ (by simp; omega)), hct]
      rfl
    rw [hc] at heq
    simp only [Bool.true_eq_false, if_false] at heq
    have hq := queue_chunks_fail env bitmap ((w : Int) * (h : Int))
      ((w * h % 1024 : Nat) : Int) ((w * h - 1) / 1024 + 1) 0 T (control_trans x y w h)
      (by omega) (k - 5) (by omega) (fun j hj => hbefore _ (by rw [hclen]; omega))
      (by rw [hclen, show 5 + (k - 5) = k by omega]; exact hfail)
    rw [hch] at hq
    refine ⟨_, heq, ?_, ?_⟩
    · show (queue_chunks _ _ _ _ _ _ _ _).2.2 = false
      rw [hq]
    · show (queue_chunks _ _ _ _ _ _ _ _).2.1 = _
      rw [hq, show k + 1 = (control_trans x y w h).length + (k - 5 + 1) by rw [hclen]; omega,
        List.take_append, ← List.map_take, List.take_range, Nat.min_eq_left (by omega)]

/-- C12: with both allocations successful and the result of each call of
`spi_device_queue_trans` given by the environment, let `n = 5 + N` be the number of
transactions of the draw (those queued when every submission succeeds).  If the
submission of index `k < n` is the first to fail, the call ends in the failed `assert`
(`returned = false`) and the transactions submitted are exactly the first `k + 1`, the
failing one being the last; and the call returns normally if and only if all `n`
submissions returned `ESP_OK`, in which case all `n` were submitted. -/
theorem draw_submission_failure (env : Env) (h1 : env.calloc_trans_ok = true)
    (h2 : env.calloc_userdata_ok = true) (x y w h bitmap : Nat) (free_buffer : Int)
    (hp : w * h ≤ 2147483647) :
    ∃ r r0, ili_draw_bitmap env x y w h bitmap free_buffer = some r ∧
      ili_draw_bitmap { env with queue_trans_ok := fun _ => true } x y w h bitmap free_buffer
        = some r0 ∧
      r0.returned = true ∧ r0.queued.length = 5 + ((w * h - 1) / 1024 + 1) ∧
      (∀ k, k < r0.queued.length → (∀ j, j < k → env.queue_trans_ok j = true) →
        env.queue_trans_ok k = false →
        r.returned = false ∧ r.queued = r0.queued.take (k + 1) ∧ r.queued.length = k + 1) ∧
      (r.returned = true ↔ ∀ k, k < r0.queued.length → env.queue_trans_ok k = true) ∧
      (r.returned = true → r.queued = r0.queued) := by
  obtain ⟨r0, hr0, hret0, hq0⟩ := draw_ok_upto { env with queue_trans_ok := fun _ => true }
    h1 h2 x y w h bitmap free_buffer hp (fun _ _ => rfl)
  have hlen0 : r0.queued.length = 5 + ((w * h - 1) / 1024 + 1) := by
    rw [hq0, length_control_append, List.length_map, List.length_range]
  have hfail : ∀ k, k < r0.queued.length → (∀ j, j < k → env.queue_trans_ok j = true) →
      env.queue_trans_ok k = false →
      ∃ r, ili_draw_bitmap env x y w h bitmap free_buffer = some r ∧
        r.returned = false ∧ r.queued = r0.queued.take (k + 1) := by
    intro k hk hb hf
    rw [hq0]
    exact draw_fail_at env h1 h2 x y w h bitmap free_buffer hp k (hlen0 ▸ hk) hb hf
  by_cases hall : ∀ k, k < r0.queued.length → env.queue_trans_ok k = true
  · obtain ⟨r, hr, hret, hq⟩ := draw_ok_upto env h1 h2 x y w h bitmap free_buffer hp
      (fun j hj => hall j (hlen0 ▸ hj))
    refine ⟨r, r0, hr, hr0, hret0, hlen0, ?_, ⟨fun _ => hall, fun _ => hret⟩,
      fun _ => by rw [hq, hq0]⟩
    intro k hk _ hf
    rw [hall k hk] at hf
    exact absurd hf (by decide)
  · have hex : ∃ k, k < r0.queued.length ∧ env.queue_trans_ok k = false := by
      by_contra hne
      exact hall fun k hk => by
        cases hok : env.queue_trans_ok k with
        | true => rfl
        | false => exact absurd ⟨k, hk, hok⟩ hne
    obtain ⟨hk0, hf0⟩ := Nat.find_spec hex
    have hb0 : ∀ j, j < Nat.find hex → env.queue_trans_ok j = true := by
      intro j hj
      cases hok : env.queue_trans_ok j with
      | true => rfl
      | false => exact absurd ⟨by omega, hok⟩ (Nat.find_min hex hj)
    obtain ⟨r, hr, hret, hq⟩ := hfail _ hk0 hb0 hf0
    refine ⟨r, r0, hr, hr0, hret0, hlen0, ?_, ⟨fun ht => ?_, fun ha => absurd ha hall⟩,
      fun ht => ?_⟩
    · intro k hk hb hf
      obtain ⟨r', hr', hret', hq'⟩ := hfail k hk hb hf
      have : r' = r := Option.some.inj (hr'.symm.trans hr)
      subst this
      refine ⟨hret', hq', ?_⟩
      rw [hq', List.length_take]
      omega
    · rw [hret] at ht
      exact absurd ht (by decide)
    · rw [hret] at ht
      exact absurd ht (by decide)

/-- Witness of `draw_submission_failure`: a 64 x 64 draw (9 transactions) in which the
submission of index 6, the second payload chunk, fails: the call aborts after 7
submissions. -/
theorem draw_submission_failure_witness :
    ((true = true) ∧ (true = true) ∧ 64 * 64 ≤ 2147483647) ∧
    ∃ r, ili_draw_bitmap { calloc_trans_ok := true, calloc_userdata_ok := true,
                           queue_trans_ok := fun k => decide (k ≠ 6) }
        0 0 64 64 1073414144 1 = some r ∧
      r.returned = false ∧ r.queued.length = 7 := by
  refine ⟨⟨rfl, rfl, by decide⟩, ?_⟩
  obtain ⟨r, r0, hr, -, -, hlen0, hfail, -, -⟩ := draw_submission_failure
    { calloc_trans_ok := true, calloc_userdata_ok := true,
      queue_trans_ok := fun k => decide (k ≠ 6) }
    rfl rfl 0 0 64 64 1073414144 1 (by decide)
  obtain ⟨hret, -, hl⟩ := hfail 6 (by rw [hlen0]; decide)
    (fun j hj => decide_eq_true (by omega)) (by decide)
  exact ⟨r, hr, hret, hl⟩

/-! ## The initialisation walk -/

theorem and_0x1F_le (n : Nat) : n &&& 0x1F ≤ 31 := Nat.and_le_right

theorem wire_ili_cmd (ok : Bool) (cmd_addr cmd : Nat) :
    (ili_cmd ok cmd_addr cmd).1.flatMap Event.wire = [Wire.byte 0 cmd] := rfl

theorem ili_data_in_bounds (ok : Bool) (data : Nat) (mem : List Nat) (n : Nat)
    (hn : n ≤ 31) (hm : n ≤ mem.length) :
    ∃ ev, ili_data ok data mem (n : Int) = some (ev, if n = 0 then true else ok) ∧
      ev.length = (if n = 0 then 0 else 1) ∧
      ev.flatMap Event.wire = (mem.take n).map (Wire.byte 1) := by
  unfold ili_data
  by_cases h0 : n = 0
  · subst h0
    exact ⟨[], by simp, rfl, by simp⟩
  · have h1 : ¬ ((n : Int) = 0) := by omega
    have h2 : ¬ (INT_MAX < (n : Int) * 8 ∨ (n : Int) < 0 ∨ (mem.length : Int) < (n : Int)) := by
      simp only [INT_MAX]; omega
    simp only [h1, h2, if_false, h0]
    refine ⟨_, rfl, rfl, ?_⟩
    simp [List.flatMap, Event.wire, ili_spi_pre_transfer_callback, calloc_trans]

theorem init_loop_ok (env : InitEnv) (hok : ∀ k, env.transmit_ok k = true)
    (pre : List ili_init_cmd_t) (s : ili_init_cmd_t) (post : List ili_init_cmd_t)
    (hs : s.databytes = 0xff)
    (hpre : ∀ e ∈ pre, e.databytes ≠ 0xff ∧ (e.databytes &&& 0x1F) ≤ e.data.length)
    (cmd k : Nat) :
    ∃ ev, ili_init_loop env cmd k (pre ++ s :: post) = some (ev, true) ∧
      ev.flatMap Event.wire = init_sequence (pre ++ s :: post) := by
  induction pre generalizing cmd k with
  | nil => exact ⟨[], by simp [ili_init_loop, hs], by simp [init_sequence, hs]⟩
  | cons e pre ih =>
    obtain ⟨hne, hb⟩ := hpre e (List.mem_cons_self e pre)
    obtain ⟨d, hd, -, hdw⟩ := ili_data_in_bounds (env.transmit_ok (k + 1))
      (env.table_addr + 18 * cmd + 1) e.data (e.databytes &&& 0x1F) (and_0x1F_le _) hb
    obtain ⟨ev, hev, hw⟩ := ih (fun e' he' => hpre e' (List.mem_cons_of_mem e he'))
      (cmd + 1) (k + 1 + d.length)
    rw [hok] at hd
    simp only [ite_self] at hd
    refine ⟨(ili_cmd (env.transmit_ok k) env.cmd_addr e.cmd).1 ++ d ++
      (if e.databytes &&& 0x80 ≠ 0 then [Event.vTaskDelay_100ms] else []) ++ ev, ?_, ?_⟩
    · simp only [List.cons_append, ili_init_loop, hne, if_false]
      simp [ili_cmd, hok, hd, hev]
    · simp only [List.cons_append, init_sequence, hne, if_false, List.flatMap_append,
        wire_ili_cmd, hdw, hw]
      congr 2
      split <;> rfl

theorem init_loop_in_bounds (env : InitEnv)
    (pre : List ili_init_cmd_t) (s : ili_init_cmd_t) (post : List ili_init_cmd_t)
    (hs : s.databytes = 0xff)
    (hpre : ∀ e ∈ pre, (e.databytes &&& 0x1F) ≤ e.data.length) (cmd k : Nat) :
    (ili_init_loop env cmd k (pre ++ s :: post)).isSome = true := by
  induction pre generalizing cmd k with
  | nil => simp [ili_init_loop, hs]
  | cons e pre ih =>
    have hb := hpre e (List.mem_cons_self e pre)
    obtain ⟨d, hd, -, -⟩ := ili_data_in_bounds (env.transmit_ok (k + 1))
      (env.table_addr + 18 * cmd + 1) e.data (e.databytes &&& 0x1F) (and_0x1F_le _) hb
    have hrest := ih (fun e' he' => hpre e' (List.mem_cons_of_mem e he'))
      (cmd + 1) (k + 1 + d.length)
    obtain ⟨r, hr⟩ := Option.isSome_iff_exists.mp hrest
    show (ili_init_loop env cmd k (e :: (pre ++ s :: post))).isSome = true
    simp only [ili_init_loop, hd, hr]
    split_ifs <;> simp

theorem init_table_split :
    ili_init_cmds = ili_init_cmds.take 24 ++
      { cmd := 0, data := data16 [0], databytes := 0xff } :: [] := by
  decide

theorem init_table_bounds :
    ∀ e ∈ ili_init_cmds.take 24,
      e.databytes ≠ 0xff ∧ (e.databytes &&& 0x1F) ≤ e.data.length := by
  decide

/-- C15: when every transmission succeeds, `ili_init` returns, and between the reset
sequence (7 calls) and the backlight call it produces the wire sequence of the table's
comment: for each entry before the first one with `databytes = 0xFF`, in table order,
the command byte at D/C level 0, then the first `databytes & 0x1F` data bytes at level
1, then a delay if and only if bit 7 of `databytes` is set.  In this table the first
entry with `databytes = 0xFF` is entry 24, so exactly the 24 commands before it are
sent, and the entries with bit 7 set are exactly the commands 0x11 and 0x29. -/
theorem init_walk (env : InitEnv) (hok : ∀ k, env.transmit_ok k = true) :
    ∃ ev, ili_init env = some (ev, true) ∧
      ((ev.drop 7).dropLast).flatMap Event.wire = init_sequence ili_init_cmds ∧
      init_sequence ili_init_cmds = (ili_init_cmds.take 24).flatMap (fun e =>
        [Wire.byte 0 e.cmd] ++ (e.data.take (e.databytes &&& 0x1F)).map (Wire.byte 1) ++
          (if e.databytes &&& 0x80 ≠ 0 then [Wire.delay] else [])) ∧
      (ili_init_cmds.take 24).length = 24 ∧
      (∀ e ∈ ili_init_cmds.take 24, e.databytes ≠ 0xff) ∧
      (ili_init_cmds[24]?).map (fun e => e.databytes) = some 0xff ∧
      (init_sequence ili_init_cmds).filterMap
          (fun x => match x with
            | Wire.byte 0 c => some c
            | _ => none)
        = (ili_init_cmds.take 24).map (fun e => e.cmd) ∧
      ((ili_init_cmds.take 24).filter (fun e => e.databytes &&& 0x80 ≠ 0)).map
        (fun e => e.cmd) = [0x11, 0x29] := by
  obtain ⟨ev, hev, hw⟩ := init_loop_ok env hok (ili_init_cmds.take 24)
    { cmd := 0, data := data16 [0], databytes := 0xff } [] rfl init_table_bounds 0 0
  rw [← init_table_split] at hev hw
  refine ⟨_, by simp only [ili_init, hev]; rfl, ?_, by decide, by decide,
    fun e he => (init_table_bounds e he).1, by decide, by decide, by decide⟩
  simpa using hw

/-- Witness of `init_walk`: the environment in which every transmission succeeds. -/
theorem init_walk_witness :
    (∀ k, (fun _ : Nat => true) k = true) ∧
    ∃ ev, ili_init ⟨fun _ => true, 1073420000, 1061160000⟩ = some (ev, true) ∧
      ((ev.drop 7).dropLast).flatMap Event.wire = init_sequence ili_init_cmds := by
  refine ⟨fun _ => rfl, ?_⟩
  obtain ⟨ev, hev, hw, -⟩ := init_walk ⟨fun _ => true, 1073420000, 1061160000⟩
    (fun _ => rfl)
  exact ⟨ev, hev, hw⟩

/-- C19: for every answer of the transport, the walk of `ili_init` ends without reading
past the end of the table or of a `data` array; the table has an entry with
`databytes = 0xFF`, its entry 24, and for each of the 24 entries before it the byte
count `databytes & 0x1F` passed to `ili_data` is at most 16, the size of `data`. -/
theorem init_walk_in_bounds (env : InitEnv) :
    (ili_init env).isSome = true ∧
    (∃ e ∈ ili_init_cmds, e.databytes = 0xff) ∧
    (ili_init_cmds[24]?).map (fun e => e.databytes) = some 0xff ∧
    ∀ e ∈ ili_init_cmds.take 24,
      e.databytes ≠ 0xff ∧ (e.databytes &&& 0x1F) ≤ 16 ∧ e.data.length = 16 := by
  refine ⟨?_, by decide, by decide, by decide⟩
  have h := init_loop_in_bounds env (ili_init_cmds.take 24)
    { cmd := 0, data := data16 [0], databytes := 0xff } [] rfl
    (fun e he => (init_table_bounds e he).2) 0 0
  rw [← init_table_split] at h
  obtain ⟨r, hr⟩ := Option.isSome_iff_exists.mp h
  simp only [ili_init, hr]
  split <;> rfl

/-- C16: the transaction that `ili_cmd` transmits for a command byte has 8 bits and
makes `ili_spi_pre_transfer_callback` select level 0; for `len ≥ 1`, whenever
`ili_data` is defined it transmits one transaction, of `8 * len` bits, for which the
callback selects level 1, and it is defined when the buffer holds `len` bytes and
`8 * len` is within `int`; with `len = 0` it transmits nothing. -/
theorem sync_primitives_dc (ok : Bool) (cmd_addr cmd data : Nat) (mem : List Nat)
    (len : Int) (hlen : 1 ≤ len) :
    (∃ t u, ili_cmd ok cmd_addr cmd = ([Event.spi_device_transmit t [u] [cmd]], ok) ∧
      ili_spi_pre_transfer_callback [u] t = some 0 ∧ t.length = 8) ∧
    (∀ r, ili_data ok data mem len = some r →
      ∃ t, r = ([Event.spi_device_transmit t [] (mem.take len.toNat)], ok) ∧
        ili_spi_pre_transfer_callback [] t = some 1 ∧ (t.length : Int) = 8 * len) ∧
    (len ≤ mem.length → 8 * len ≤ 2147483647 → (ili_data ok data mem len).isSome = true) ∧
    ili_data ok data mem 0 = some ([], true) := by
  have h0 : ¬ len = 0 := by omega
  refine ⟨⟨_, _, rfl, rfl, rfl⟩, ?_, ?_, rfl⟩
  · intro r hr
    unfold ili_data at hr
    simp only [h0, if_false] at hr
    split at hr
    · exact absurd hr (by simp)
    · rename_i hb
      simp only [Option.some.injEq] at hr
      subst hr
      refine ⟨_, rfl, rfl, ?_⟩
      show (((len * 8).toNat : Nat) : Int) = 8 * len
      omega
  · intro hm hov
    unfold ili_data
    have hb : ¬ (INT_MAX < len * 8 ∨ len < 0 ∨ (mem.length : Int) < len) := by
      simp only [INT_MAX]; omega
    simp only [h0, hb, if_false]
    rfl

/-- Witness of `sync_primitives_dc`: the command 0x2A and its four data bytes. -/
theorem sync_primitives_dc_witness :
    (1 : Int) ≤ 4 ∧
    (∃ t u, ili_cmd true 1073420000 0x2A
        = ([Event.spi_device_transmit t [u] [0x2A]], true) ∧
      ili_spi_pre_transfer_callback [u] t = some 0 ∧ t.length = 8) ∧
    (ili_data true 1061160307 (data16 [0x00, 0x00, 0x00, 0xEF]) 4).isSome = true :=
  ⟨by decide,
   (sync_primitives_dc true 1073420000 0x2A 1061160307 (data16 [0x00, 0x00, 0x00, 0xEF]) 4
      (by decide)).1,
   (sync_primitives_dc true 1073420000 0x2A 1061160307 (data16 [0x00, 0x00, 0x00, 0xEF]) 4
      (by decide)).2.2.1 (by decide) (by decide)⟩

end Ili9341
